import Mathlib

/-!
Type and shape inference of the ONNX operator schemas.

A shallow embedding of the operator registrations of
`onnx/defs/experiments/defs.cc`, `onnx/defs/logical/defs.cc` and
`onnx/defs/reduction/defs.cc`, together with the inference functions these
files define (`logicalOpInference`, and the two closures attached to
`ConstantFill` and `GivenTensorFill`).

The helpers of `onnx/defs/schema.h` that the three files call are not among
the sources; each of them is given a definition here whose doc comment says
so.  C++ early `return` is modelled by returning the current context, and a
dereference of a missing pointer by an error value.
-/

set_option autoImplicit false

namespace ONNX

/-! ## Data model -/

/-- A single-precision attribute payload, kept as its bit pattern.  No
inference function computes with it. -/
structure Float32 where
  bits : Nat
  deriving DecidableEq, Repr

namespace TensorProto

/-- Modelled from the spec: the element-type enumeration `TensorProto::DataType`
(declared in the protobuf definitions, which are not among the sources).  An
element type is identified by its enum code, so that an integer attribute can
be "interpreted as an element-type enum code". -/
structure DataType where
  code : Int
  deriving DecidableEq, Repr

/-- Modelled from the spec: enum value `TensorProto::FLOAT`. -/
def FLOAT : DataType := ⟨1⟩
/-- Modelled from the spec: enum value `TensorProto::INT32`. -/
def INT32 : DataType := ⟨6⟩
/-- Modelled from the spec: enum value `TensorProto::INT64`. -/
def INT64 : DataType := ⟨7⟩
/-- Modelled from the spec: enum value `TensorProto::BOOL`. -/
def BOOL : DataType := ⟨9⟩
/-- Modelled from the spec: enum value `TensorProto::FLOAT16`. -/
def FLOAT16 : DataType := ⟨10⟩
/-- Modelled from the spec: enum value `TensorProto::DOUBLE`. -/
def DOUBLE : DataType := ⟨11⟩

end TensorProto

namespace AttributeProto

/-- Modelled from the spec: the declared kind of an attribute
(`AttributeProto::AttributeType`), restricted to the kinds carrying plain
values. -/
inductive AttributeType
  | FLOAT | INT | STRING | FLOATS | INTS | STRINGS
  deriving DecidableEq, Repr

end AttributeProto

/-- Modelled from the spec: `AttributeValue`, the typed union carried by
one attribute of an operator instance. -/
inductive AttributeValue
  | f (v : Float32)
  | i (v : Int)
  | s (v : String)
  | floats (v : List Float32)
  | ints (v : List Int)
  | strings (v : List String)
  deriving DecidableEq, Repr

/-- The kind of an attribute value. -/
def AttributeValue.kind : AttributeValue → AttributeProto.AttributeType
  | .f _ => .FLOAT
  | .i _ => .INT
  | .s _ => .STRING
  | .floats _ => .FLOATS
  | .ints _ => .INTS
  | .strings _ => .STRINGS

/-- Modelled from the spec: one `Dimension` of a shape, either a concrete
integer (`dim_value`), a symbol (`dim_param`) or not set at all.  The last two
are the spec's UNKNOWN.  The concrete value is the signed 64-bit field of the
wire format, so a negative number can be stored. -/
inductive Dimension
  | dim_value (v : Int)
  | dim_param (p : String)
  | unknown
  deriving DecidableEq, Repr

/-- Modelled from the spec: `TensorShapeProto`, the ordered sequence of
dimensions of a shape of known rank. -/
structure TensorShapeProto where
  dim : List Dimension
  deriving DecidableEq, Repr

/-- The call `shape.add_dim()->set_dim_value(v)`: one more trailing concrete
dimension. -/
def TensorShapeProto.add_dim_value (shape : TensorShapeProto) (v : Int) :
    TensorShapeProto :=
  ⟨shape.dim ++ [Dimension.dim_value v]⟩

/-- Modelled from the spec: the `TypeShapeDescriptor` of one input or output
slot (`TypeProto` with its `tensor_type()` flattened).  `elem_type = none` is
the UNKNOWN element type and `shape = none` is UNKNOWN-RANK. -/
structure TypeProto where
  elem_type : Option TensorProto.DataType
  shape : Option TensorShapeProto
  deriving DecidableEq, Repr

/-- Modelled from the spec: the `InferenceContext` of one operator instance:
its attributes by name, its input descriptors (`none` for an optional input
that is not supplied) and its output descriptor slots. -/
structure InferenceContext where
  attributes : List (String × AttributeValue)
  inputs : List (Option TypeProto)
  outputs : List TypeProto
  deriving DecidableEq, Repr

/-- What an inference function reports instead of a result. -/
inductive InferenceError
  | attributeKindMismatch (name : String)
  | nullInputType (index : Nat)
  | noOutputSlot (index : Nat)
  deriving DecidableEq, Repr

/-- The type of a type-and-shape inference function
(`void (InferenceContext&)`): the context after the call, or a report. -/
abbrev InferenceFunction := InferenceContext → Except InferenceError InferenceContext

namespace InferenceContext

/-- Modelled from the spec: `ctx.getAttribute(name)`, the attribute value or
absent (`nullptr`). -/
def getAttribute (ctx : InferenceContext) (name : String) : Option AttributeValue :=
  ctx.attributes.lookup name

/-- Modelled from the spec: `ctx.getInputType(index)`, `nullptr` when the
input is not supplied. -/
def getInputType (ctx : InferenceContext) (index : Nat) : Option TypeProto :=
  (ctx.inputs.get? index).join

/-- Modelled from the spec: `ctx.getOutputType(index)`, the output slot. -/
def getOutputType (ctx : InferenceContext) (index : Nat) : Option TypeProto :=
  ctx.outputs.get? index

end InferenceContext

/-- Of two contexts, the second differs from the first at most in the
descriptor of output slot `k`: same attributes, same input descriptors, as
many output slots, and the same descriptor in every other output slot. -/
def InferenceContext.onlyOutputChanged (k : Nat) (before after : InferenceContext) : Prop :=
  after.attributes = before.attributes ∧ after.inputs = before.inputs ∧
  after.outputs.length = before.outputs.length ∧
  ∀ j, j ≠ k → after.getOutputType j = before.getOutputType j

/-! ## The helpers of `schema.h` -/

/-- Modelled from the spec: `getAttribute(ctx, name, default)` of `schema.h`,
"returning `default` when absent, without error"; an attribute of another
kind is "a contract violation reported to the caller, not silently coerced". -/
def getAttribute (ctx : InferenceContext) (attributeName : String) (defaultValue : Int) :
    Except InferenceError Int :=
  match ctx.getAttribute attributeName with
  | none => .ok defaultValue
  | some (.i v) => .ok v
  | some _ => .error (.attributeKindMismatch attributeName)

/-- Modelled from the spec: `getRepeatedAttribute(ctx, name, out)` of
`schema.h` for an initially empty `out`: the sequence in declared order, the
empty sequence when the attribute is absent. -/
def getRepeatedAttribute (ctx : InferenceContext) (attr_name : String) :
    Except InferenceError (List Int) :=
  match ctx.getAttribute attr_name with
  | none => .ok []
  | some (.ints vs) => .ok vs
  | some _ => .error (.attributeKindMismatch attr_name)

/-- Modelled from the spec: `hasInputShape(ctx, i)` of `schema.h`, "true iff
input i's ShapeDescriptor has known rank". -/
def hasInputShape (ctx : InferenceContext) (n : Nat) : Bool :=
  match ctx.getInputType n with
  | some t => t.shape.isSome
  | none => false

/-- Modelled from the spec: `updateOutputElemType(ctx, out_idx, type)` of
`schema.h`, which "sets a fixed ElementType directly". -/
def updateOutputElemType (ctx : InferenceContext) (outputIndex : Nat)
    (elemType : TensorProto.DataType) : Except InferenceError InferenceContext :=
  match ctx.getOutputType outputIndex with
  | none => .error (.noOutputSlot outputIndex)
  | some t =>
    .ok { ctx with outputs := ctx.outputs.set outputIndex { t with elem_type := some elemType } }

/-- Modelled from the spec: `updateOutputShape(ctx, out_idx, shape)` of
`schema.h`, which "installs" the shape computed by the inference function. -/
def updateOutputShape (ctx : InferenceContext) (outputIndex : Nat)
    (shape : TensorShapeProto) : Except InferenceError InferenceContext :=
  match ctx.getOutputType outputIndex with
  | none => .error (.noOutputSlot outputIndex)
  | some t =>
    .ok { ctx with outputs := ctx.outputs.set outputIndex { t with shape := some shape } }

/-- Modelled from the spec: `propagateElemTypeFromInputToOutput` of
`schema.h`, which "copies ElementType only, independent of shape; fails
(no-op, not error) if input ElementType is UNKNOWN". -/
def propagateElemTypeFromInputToOutput (ctx : InferenceContext)
    (inputIndex outputIndex : Nat) : Except InferenceError InferenceContext :=
  match ctx.getInputType inputIndex with
  | none => .ok ctx
  | some t =>
    match t.elem_type with
    | none => .ok ctx
    | some e => updateOutputElemType ctx outputIndex e

/-- Modelled from the spec: `propagateShapeFromInputToOutput` of `schema.h`,
which "copies the input's full ShapeDescriptor verbatim into the output slot;
no-op if the input has unknown rank". -/
def propagateShapeFromInputToOutput (ctx : InferenceContext)
    (inputIndex outputIndex : Nat) : Except InferenceError InferenceContext :=
  match ctx.getInputType inputIndex with
  | none => .ok ctx
  | some t =>
    match t.shape with
    | none => .ok ctx
    | some sh => updateOutputShape ctx outputIndex sh

/-- Modelled from the spec: `propagateElemTypeFromAttributeToOutput` of
`schema.h`: "output ElementType is taken from an integer-valued attribute
whose value is interpreted as an element-type enum code; if the attribute is
absent, a supplied default element-type is used instead". -/
def propagateElemTypeFromAttributeToOutput (ctx : InferenceContext)
    (attributeName : String) (outputIndex : Nat) (default_value : TensorProto.DataType) :
    Except InferenceError InferenceContext :=
  match ctx.getAttribute attributeName with
  | none => updateOutputElemType ctx outputIndex default_value
  | some (.i v) => updateOutputElemType ctx outputIndex ⟨v⟩
  | some _ => .error (.attributeKindMismatch attributeName)

/-- Modelled from the spec: the ShapeDescriptor "built directly from
that attribute's integer sequence, each entry becoming one concrete Dimension".  A
concrete Dimension is a non-negative integer (spec section 3), so a sequence
with a negative entry has no ShapeDescriptor: `none`. -/
def shapeOfInts (vs : List Int) : Option TensorShapeProto :=
  if vs.all (fun v => decide (0 ≤ v)) then some ⟨vs.map Dimension.dim_value⟩ else none

/-- Modelled from the spec: `propagateShapeFromAttributeToOutput` of
`schema.h`: "the output ShapeDescriptor is built directly from
that attribute's integer sequence, each entry becoming one concrete Dimension,
ignoring any input shape entirely".  Without the attribute nothing is
installed.  Nothing is installed either for a sequence with a negative entry,
which has no ShapeDescriptor: a shape that cannot be resolved is handled "by
leaving the output descriptor unresolved, never by raising" (spec section 7),
which is also what the extension path of the closures does at a negative extra
dimension. -/
def propagateShapeFromAttributeToOutput (ctx : InferenceContext)
    (attributeName : String) (outputIndex : Nat) : Except InferenceError InferenceContext :=
  match ctx.getAttribute attributeName with
  | none => .ok ctx
  | some (.ints vs) =>
    match shapeOfInts vs with
    | none => .ok ctx
    | some shape => updateOutputShape ctx outputIndex shape
  | some _ => .error (.attributeKindMismatch attributeName)

/-- Modelled from the spec: `propagateShapeAndTypeFromFirstInput` of
`schema.h`: "output 0 gets input 0's ElementType unconditionally and
ShapeDescriptor iff input 0's rank is known". -/
def propagateShapeAndTypeFromFirstInput : InferenceFunction := fun ctx =>
  match propagateElemTypeFromInputToOutput ctx 0 0 with
  | .error e => .error e
  | .ok ctx1 => propagateShapeFromInputToOutput ctx1 0 0

/-- Modelled from the spec: the inference function of a freshly constructed
`OpSchema()` (`schema.h`), kept by every schema to which no
`TypeAndShapeInferenceFunction` is attached.  It infers nothing: after it
returns every output slot holds the unchanged descriptor. -/
def dummyInferenceFunction : InferenceFunction := fun ctx => .ok ctx

/-! ## Operator schemas and their builder -/

/-- Modelled from the spec: the constant `ONNX_DOMAIN` (declared outside the
three files), the domain under which every schema here is registered. -/
def ONNX_DOMAIN : String := ""

/-- Modelled from the spec: the constant `OPTIONAL` passed as the `required`
argument of `Attr`: the attribute may be absent and has no default. -/
def OPTIONAL : Bool := false

namespace OpSchema

/-- Support level given to `SetSupportLevel`. -/
inductive SupportType
  | COMMON | EXPERIMENTAL
  deriving DecidableEq, Repr

/-- Cardinality of an input or output slot (`OpSchema::Optional`,
`OpSchema::Variadic`, and the default). -/
inductive FormalParameterOption
  | Single | Optional | Variadic
  deriving DecidableEq, Repr

/-- Modelled from the spec: an `AttributeSpec`, "(name, declared kind,
required-or-default)". -/
structure Attribute where
  name : String
  type : AttributeProto.AttributeType
  required : Bool
  default_value : Option AttributeValue
  deriving DecidableEq, Repr

/-- One declared input or output slot: its index, name, type string and
cardinality (the description text is not kept). -/
structure FormalParameter where
  index : Nat
  name : String
  type_str : String
  param_option : FormalParameterOption
  deriving DecidableEq, Repr

/-- The set of type strings given to `TypeConstraint`: written out in the
registration, or one of the two sets of `schema.h` that the reduction file
names without listing. -/
inductive TypeSet
  | list (types : List String)
  | high_precision_numeric_types
  | all_numeric_types
  deriving DecidableEq, Repr

/-- A named type constraint. -/
structure TypeConstraintParam where
  type_param_str : String
  allowed_type_strs : TypeSet
  deriving DecidableEq, Repr

end OpSchema

/-- Modelled from the spec: `OperatorSchema`, "(domain, name, version)
identity", input and output slots, type constraints, attribute specs and "one
inference function".  The default values are those of `OpSchema()`.
Documentation strings are not kept. -/
structure OpSchema where
  name : String := "unknown"
  domain : String := ONNX_DOMAIN
  since_version : Nat := 1
  support_level : OpSchema.SupportType := .COMMON
  allow_unchecked_attributes : Bool := false
  attributes : List OpSchema.Attribute := []
  inputs : List OpSchema.FormalParameter := []
  outputs : List OpSchema.FormalParameter := []
  type_constraints : List OpSchema.TypeConstraintParam := []
  tensor_inference_function : InferenceFunction := dummyInferenceFunction

namespace OpSchema

/-- Builder call `SetSupportLevel`. -/
def SetSupportLevel (schema : OpSchema) (level : SupportType) : OpSchema :=
  { schema with support_level := level }

/-- Builder call `AllowUncheckedAttributes`. -/
def AllowUncheckedAttributes (schema : OpSchema) : OpSchema :=
  { schema with allow_unchecked_attributes := true }

/-- Builder call `Attr(name, description, type, required)`. -/
def Attr (schema : OpSchema) (name : String) (type : AttributeProto.AttributeType)
    (required : Bool) : OpSchema :=
  { schema with attributes := schema.attributes ++ [⟨name, type, required, none⟩] }

/-- Builder call `Attr(name, description, type, defaultValue)`. -/
def AttrDefault (schema : OpSchema) (name : String) (type : AttributeProto.AttributeType)
    (defaultValue : AttributeValue) : OpSchema :=
  { schema with attributes := schema.attributes ++ [⟨name, type, false, some defaultValue⟩] }

/-- Builder call `Input(n, name, description, type_str, param_option)`. -/
def Input (schema : OpSchema) (n : Nat) (name type_str : String)
    (param_option : FormalParameterOption) : OpSchema :=
  { schema with inputs := schema.inputs ++ [⟨n, name, type_str, param_option⟩] }

/-- Builder call `Output(n, name, description, type_str, param_option)`. -/
def Output (schema : OpSchema) (n : Nat) (name type_str : String)
    (param_option : FormalParameterOption) : OpSchema :=
  { schema with outputs := schema.outputs ++ [⟨n, name, type_str, param_option⟩] }

/-- Builder call `TypeConstraint(type_str, constraints, description)`. -/
def TypeConstraint (schema : OpSchema) (type_str : String) (constraints : TypeSet) :
    OpSchema :=
  { schema with type_constraints := schema.type_constraints ++ [⟨type_str, constraints⟩] }

/-- Builder call `TypeAndShapeInferenceFunction(f)`. -/
def TypeAndShapeInferenceFunction (schema : OpSchema) (inferenceFunction : InferenceFunction) :
    OpSchema :=
  { schema with tensor_inference_function := inferenceFunction }

/-- Builder call `FillUsing(populator)`. -/
def FillUsing (schema : OpSchema) (populator : OpSchema → OpSchema) : OpSchema :=
  populator schema

/-- The identity of a schema in the registry. -/
def identity (schema : OpSchema) : String × String × Nat :=
  (schema.domain, schema.name, schema.since_version)

/-- An inference context is an instance of a schema when every attribute the
schema declares has, if the instance carries it, a value of the declared kind,
and the context reserves a slot for every declared output. -/
def isInstance (schema : OpSchema) (ctx : InferenceContext) : Bool :=
  schema.attributes.all (fun a =>
      match ctx.getAttribute a.name with
      | none => true
      | some v => v.kind == a.type)
    && schema.outputs.all (fun o => o.index < ctx.outputs.length)

end OpSchema

/-- Modelled from the spec: the element type that a tensor type string of a
type constraint stands for (the table is kept outside the three files), for
the type strings that the registrations here write out. -/
def elemTypeOfTypeStr (type_str : String) : Option TensorProto.DataType :=
  if type_str = "tensor(float)" then some TensorProto.FLOAT
  else if type_str = "tensor(int32)" then some TensorProto.INT32
  else if type_str = "tensor(int64)" then some TensorProto.INT64
  else if type_str = "tensor(bool)" then some TensorProto.BOOL
  else if type_str = "tensor(float16)" then some TensorProto.FLOAT16
  else if type_str = "tensor(double)" then some TensorProto.DOUBLE
  else none

/-- The element types that the type constraint named `type_param_str` of a
schema allows, for a constraint whose type strings are written out. -/
def OpSchema.allowedElemTypes (schema : OpSchema) (type_param_str : String) :
    List TensorProto.DataType :=
  (schema.type_constraints.filter (fun c => c.type_param_str == type_param_str)).flatMap
    (fun c =>
      match c.allowed_type_strs with
      | .list types => types.filterMap elemTypeOfTypeStr
      | _ => [])

/-- Modelled from the spec: the registration `ONNX_OPERATOR_SCHEMA(name,
domain, version, schema)`, whose definition is not among the sources: the
built schema under the identity (domain, name, version). -/
def ONNX_OPERATOR_SCHEMA (name domain : String) (version : Nat) (schema : OpSchema) :
    OpSchema :=
  { schema with name := name, domain := domain, since_version := version }

/-! ## `onnx/defs/experiments/defs.cc`: the fill operators -/

/-- The loop `for (auto extra_dim_val : extra_shape)` of both fill closures
(experiments/defs.cc lines 158-161 and 192-195).  `none` is the `return` taken at the
first negative entry, which leaves the closure before `updateOutputShape`. -/
def appendExtraShape (shape : TensorShapeProto) : List Int → Option TensorShapeProto
  | [] => some shape
  | extra_dim_val :: rest =>
    if extra_dim_val < 0 then none
    else appendExtraShape (shape.add_dim_value extra_dim_val) rest

/-- The read `ctx.getInputType(0)->tensor_type().shape()`; dereferencing a
missing input or reading a shape that is not there is reported. -/
def readInputShape (ctx : InferenceContext) (n : Nat) : Except InferenceError TensorShapeProto :=
  match ctx.getInputType n with
  | none => .error (.nullInputType n)
  | some t =>
    match t.shape with
    | none => .error (.nullInputType n)
    | some sh => .ok sh

/-- The closure passed to `TypeAndShapeInferenceFunction` by `ConstantFill`
(experiments/defs.cc lines 146-164). -/
def ConstantFill_inference : InferenceFunction := fun ctx =>
  match propagateElemTypeFromAttributeToOutput ctx "dtype" 0 TensorProto.FLOAT with
  | .error e => .error e
  | .ok ctx =>
    if (ctx.getAttribute "shape").isSome then
      propagateShapeFromAttributeToOutput ctx "shape" 0
    else
      match getAttribute ctx "input_as_shape" 0 with
      | .error e => .error e
      | .ok input_as_shape =>
        if input_as_shape != 0 then .ok ctx
        else
          match getRepeatedAttribute ctx "extra_shape" with
          | .error e => .error e
          | .ok extra_shape =>
            if hasInputShape ctx 0 then
              match readInputShape ctx 0 with
              | .error e => .error e
              | .ok shape =>
                match appendExtraShape shape extra_shape with
                | none => .ok ctx
                | some shape => updateOutputShape ctx 0 shape
            else .ok ctx

/-- The closure passed to `TypeAndShapeInferenceFunction` by `GivenTensorFill`
(experiments/defs.cc lines 178-198). -/
def GivenTensorFill_inference : InferenceFunction := fun ctx =>
  match propagateElemTypeFromInputToOutput ctx 0 0 with
  | .error e => .error e
  | .ok ctx =>
    if (ctx.getAttribute "shape").isSome then
      propagateShapeFromAttributeToOutput ctx "shape" 0
    else
      match getAttribute ctx "input_as_shape" 0 with
      | .error e => .error e
      | .ok input_as_shape =>
        if input_as_shape != 0 then .ok ctx
        else
          match getRepeatedAttribute ctx "extra_shape" with
          | .error e => .error e
          | .ok extra_shape =>
            if hasInputShape ctx 0 then
              match readInputShape ctx 0 with
              | .error e => .error e
              | .ok shape =>
                match appendExtraShape shape extra_shape with
                | none => .ok ctx
                | some shape => updateOutputShape ctx 0 shape
            else .ok ctx

/-- The statements that follow the first line in both fill closures
(experiments/defs.cc lines 148-163, and again lines 180-197), as one function.
The two closures above are translated one by one; `ConstantFill_inference_eq`
and `GivenTensorFill_inference_eq` show that each is its first line followed
by this function. -/
def fillShapeInference : InferenceFunction := fun ctx =>
  if (ctx.getAttribute "shape").isSome then
    propagateShapeFromAttributeToOutput ctx "shape" 0
  else
    match getAttribute ctx "input_as_shape" 0 with
    | .error e => .error e
    | .ok input_as_shape =>
      if input_as_shape != 0 then .ok ctx
      else
        match getRepeatedAttribute ctx "extra_shape" with
        | .error e => .error e
        | .ok extra_shape =>
          if hasInputShape ctx 0 then
            match readInputShape ctx 0 with
            | .error e => .error e
            | .ok shape =>
              match appendExtraShape shape extra_shape with
              | none => .ok ctx
              | some shape => updateOutputShape ctx 0 shape
          else .ok ctx

/-- The three float tensor types that most schemas of the file allow. -/
def floatTensorTypes : OpSchema.TypeSet :=
  .list ["tensor(float16)", "tensor(float)", "tensor(double)"]

/-- The float literal `1.0f`. -/
def Float32.one : Float32 := ⟨0x3F800000⟩

/-- The float literal `0.0f`. -/
def Float32.zero : Float32 := ⟨0⟩

namespace Schemas

/-- Registration of `Affine` (experiments/defs.cc lines 11-24). -/
def Affine : OpSchema :=
  ONNX_OPERATOR_SCHEMA "Affine" ONNX_DOMAIN 1
    (((((((({} : OpSchema).SetSupportLevel .EXPERIMENTAL)
      |>.AttrDefault "alpha" .FLOAT (.f Float32.one))
      |>.AttrDefault "beta" .FLOAT (.f Float32.zero))
      |>.Input 0 "X" "T" .Single)
      |>.Output 0 "Y" "T" .Single)
      |>.TypeConstraint "T" floatTensorTypes)
      |>.TypeAndShapeInferenceFunction propagateShapeAndTypeFromFirstInput)

/-- Registration of `ThresholdedRelu` (experiments/defs.cc lines 26-41). -/
def ThresholdedRelu : OpSchema :=
  ONNX_OPERATOR_SCHEMA "ThresholdedRelu" ONNX_DOMAIN 1
    ((((((({} : OpSchema).SetSupportLevel .EXPERIMENTAL)
      |>.AttrDefault "alpha" .FLOAT (.f Float32.one))
      |>.Input 0 "X" "T" .Single)
      |>.Output 0 "Y" "T" .Single)
      |>.TypeConstraint "T" floatTensorTypes)
      |>.TypeAndShapeInferenceFunction propagateShapeAndTypeFromFirstInput)

/-- Registration of `ScaledTanh` (experiments/defs.cc lines 43-57). -/
def ScaledTanh : OpSchema :=
  ONNX_OPERATOR_SCHEMA "ScaledTanh" ONNX_DOMAIN 1
    (((((((({} : OpSchema).SetSupportLevel .EXPERIMENTAL)
      |>.Attr "alpha" .FLOAT OPTIONAL)
      |>.Attr "beta" .FLOAT OPTIONAL)
      |>.Input 0 "input" "T" .Single)
      |>.Output 0 "output" "T" .Single)
      |>.TypeConstraint "T" floatTensorTypes)
      |>.TypeAndShapeInferenceFunction propagateShapeAndTypeFromFirstInput)

/-- Registration of `ParametricSoftplus` (experiments/defs.cc lines 59-72). -/
def ParametricSoftplus : OpSchema :=
  ONNX_OPERATOR_SCHEMA "ParametricSoftplus" ONNX_DOMAIN 1
    (((((((({} : OpSchema).SetSupportLevel .EXPERIMENTAL)
      |>.Attr "alpha" .FLOAT OPTIONAL)
      |>.Attr "beta" .FLOAT OPTIONAL)
      |>.Input 0 "X" "T" .Single)
      |>.Output 0 "Y" "T" .Single)
      |>.TypeConstraint "T" floatTensorTypes)
      |>.TypeAndShapeInferenceFunction propagateShapeAndTypeFromFirstInput)

/-- Registration of `ConstantFill` (experiments/defs.cc lines 74-164). -/
def ConstantFill : OpSchema :=
  ONNX_OPERATOR_SCHEMA "ConstantFill" ONNX_DOMAIN 1
    (((((((((((({} : OpSchema).SetSupportLevel .EXPERIMENTAL)
      |>.AttrDefault "value" .FLOAT (.f Float32.zero))
      |>.AttrDefault "dtype" .INT (.i TensorProto.FLOAT.code))
      |>.Attr "shape" .INTS OPTIONAL)
      |>.Attr "extra_shape" .INTS OPTIONAL)
      |>.Attr "input_as_shape" .INT OPTIONAL)
      |>.Input 0 "input" "T1" .Optional)
      |>.Output 0 "output" "T2" .Single)
      |>.TypeConstraint "T1"
          (.list ["tensor(float)", "tensor(int32)", "tensor(int64)", "tensor(bool)"]))
      |>.TypeConstraint "T2"
          (.list ["tensor(float)", "tensor(int32)", "tensor(int64)", "tensor(bool)"]))
      |>.TypeAndShapeInferenceFunction ConstantFill_inference)

/-- Registration of `GivenTensorFill` (experiments/defs.cc lines 166-198). -/
def GivenTensorFill : OpSchema :=
  ONNX_OPERATOR_SCHEMA "GivenTensorFill" ONNX_DOMAIN 1
    (((((((((({} : OpSchema).SetSupportLevel .EXPERIMENTAL)
      |>.Input 0 "shape" "T" .Optional)
      |>.Output 0 "X" "T" .Single)
      |>.TypeConstraint "T" floatTensorTypes)
      |>.Attr "values" .FLOATS OPTIONAL)
      |>.Attr "shape" .INTS OPTIONAL)
      |>.Attr "input_as_shape" .INT OPTIONAL)
      |>.Attr "extra_shape" .INTS OPTIONAL)
      |>.TypeAndShapeInferenceFunction GivenTensorFill_inference)

/-- Registration of `Scale` (experiments/defs.cc lines 200-213). -/
def Scale : OpSchema :=
  ONNX_OPERATOR_SCHEMA "Scale" ONNX_DOMAIN 1
    ((((((({} : OpSchema).SetSupportLevel .EXPERIMENTAL)
      |>.Input 0 "input" "T" .Single)
      |>.Output 0 "output" "T" .Single)
      |>.TypeConstraint "T" floatTensorTypes)
      |>.AttrDefault "scale" .FLOAT (.f Float32.one))
      |>.TypeAndShapeInferenceFunction propagateShapeAndTypeFromFirstInput)

/-- Registration of `GRUUnit` (experiments/defs.cc lines 215-249); no
inference function is attached. -/
def GRUUnit : OpSchema :=
  ONNX_OPERATOR_SCHEMA "GRUUnit" ONNX_DOMAIN 1
    ((((((((({} : OpSchema).SetSupportLevel .EXPERIMENTAL)
      |>.Attr "drop_states" .INT OPTIONAL)
      |>.Input 0 "hidden_prev" "T" .Single)
      |>.Input 1 "gates" "T" .Single)
      |>.Input 2 "seq_lengths" "T" .Single)
      |>.Input 3 "t" "T" .Single)
      |>.Output 0 "hidden" "T" .Single)
      |>.TypeConstraint "T" floatTensorTypes)

/-- Registration of `ATen` (experiments/defs.cc lines 251-263); no inference
function is attached. -/
def ATen : OpSchema :=
  ONNX_OPERATOR_SCHEMA "ATen" ONNX_DOMAIN 1
    (((((({} : OpSchema).SetSupportLevel .EXPERIMENTAL)
      |>.AllowUncheckedAttributes)
      |>.Input 0 "input" "T" .Variadic)
      |>.Output 0 "output" "T" .Variadic)
      |>.TypeConstraint "T"
          (.list ["tensor(bool)", "tensor(int32)", "tensor(int64)",
                  "tensor(float16)", "tensor(float)", "tensor(double)"]))

/-- Registration of `ImageScaler` (experiments/defs.cc lines 265-277). -/
def ImageScaler : OpSchema :=
  ONNX_OPERATOR_SCHEMA "ImageScaler" ONNX_DOMAIN 1
    (((((((({} : OpSchema).SetSupportLevel .EXPERIMENTAL)
      |>.Attr "bias" .FLOATS OPTIONAL)
      |>.AttrDefault "scale" .FLOAT (.f Float32.one))
      |>.Input 0 "input" "T" .Single)
      |>.Output 0 "output" "T" .Single)
      |>.TypeConstraint "T" floatTensorTypes)
      |>.TypeAndShapeInferenceFunction propagateShapeAndTypeFromFirstInput)

/-- Registration of `MeanVarianceNormalization` (experiments/defs.cc lines
279-290). -/
def MeanVarianceNormalization : OpSchema :=
  ONNX_OPERATOR_SCHEMA "MeanVarianceNormalization" ONNX_DOMAIN 1
    (((((((({} : OpSchema).SetSupportLevel .EXPERIMENTAL)
      |>.AttrDefault "across_channels" .INT (.i 0))
      |>.AttrDefault "normalize_variance" .INT (.i 1))
      |>.Input 0 "input" "T" .Single)
      |>.Output 0 "output" "T" .Single)
      |>.TypeConstraint "T" floatTensorTypes)
      |>.TypeAndShapeInferenceFunction propagateShapeAndTypeFromFirstInput)

/-- Registration of `Crop` (experiments/defs.cc lines 292-304); no inference
function is attached. -/
def Crop : OpSchema :=
  ONNX_OPERATOR_SCHEMA "Crop" ONNX_DOMAIN 1
    ((((((({} : OpSchema).SetSupportLevel .EXPERIMENTAL)
      |>.Attr "border" .INTS OPTIONAL)
      |>.Attr "scale" .INTS OPTIONAL)
      |>.Input 0 "input" "T" .Single)
      |>.Output 0 "output" "T" .Single)
      |>.TypeConstraint "T" floatTensorTypes)

end Schemas

/-! ## `onnx/defs/logical/defs.cc` -/

/-- The function `logicalOpInference` (logical/defs.cc lines 8-13). -/
def logicalOpInference : InferenceFunction := fun ctx =>
  match updateOutputElemType ctx 0 TensorProto.BOOL with
  | .error e => .error e
  | .ok ctx1 =>
    if hasInputShape ctx1 0 then propagateShapeFromInputToOutput ctx1 0 0
    else .ok ctx1

/-- The schema fragment `BinaryLogicDocGenerator(name)` (logical/defs.cc lines
15-36).  The name is only substituted into the documentation text. -/
def BinaryLogicDocGenerator (_name : String) : OpSchema → OpSchema := fun schema =>
  (((((schema.AttrDefault "broadcast" .INT (.i 0))
    |>.Attr "axis" .INT OPTIONAL)
    |>.Input 0 "A" "T" .Single)
    |>.Input 1 "B" "T" .Single)
    |>.Output 0 "C" "T1" .Single)
    |>.TypeAndShapeInferenceFunction logicalOpInference

namespace Schemas

/-- Registration of `And` (logical/defs.cc). -/
def And : OpSchema :=
  ONNX_OPERATOR_SCHEMA "And" ONNX_DOMAIN 1
    (((({} : OpSchema).FillUsing (BinaryLogicDocGenerator "and"))
      |>.TypeConstraint "T" (.list ["tensor(bool)"]))
      |>.TypeConstraint "T1" (.list ["tensor(bool)"]))

/-- Registration of `Or` (logical/defs.cc). -/
def Or : OpSchema :=
  ONNX_OPERATOR_SCHEMA "Or" ONNX_DOMAIN 1
    (((({} : OpSchema).FillUsing (BinaryLogicDocGenerator "or"))
      |>.TypeConstraint "T" (.list ["tensor(bool)"]))
      |>.TypeConstraint "T1" (.list ["tensor(bool)"]))

/-- Registration of `Xor` (logical/defs.cc). -/
def Xor : OpSchema :=
  ONNX_OPERATOR_SCHEMA "Xor" ONNX_DOMAIN 1
    (((({} : OpSchema).FillUsing (BinaryLogicDocGenerator "xor"))
      |>.TypeConstraint "T" (.list ["tensor(bool)"]))
      |>.TypeConstraint "T1" (.list ["tensor(bool)"]))

/-- Registration of `Greater` (logical/defs.cc). -/
def Greater : OpSchema :=
  ONNX_OPERATOR_SCHEMA "Greater" ONNX_DOMAIN 1
    (((({} : OpSchema).FillUsing (BinaryLogicDocGenerator "greater"))
      |>.TypeConstraint "T" (.list ["tensor(float16)", "tensor(float)", "tensor(double)"]))
      |>.TypeConstraint "T1" (.list ["tensor(bool)"]))

/-- Registration of `Less` (logical/defs.cc). -/
def Less : OpSchema :=
  ONNX_OPERATOR_SCHEMA "Less" ONNX_DOMAIN 1
    (((({} : OpSchema).FillUsing (BinaryLogicDocGenerator "less"))
      |>.TypeConstraint "T" (.list ["tensor(float16)", "tensor(float)", "tensor(double)"]))
      |>.TypeConstraint "T1" (.list ["tensor(bool)"]))

/-- Registration of `Equal` (logical/defs.cc). -/
def Equal : OpSchema :=
  ONNX_OPERATOR_SCHEMA "Equal" ONNX_DOMAIN 1
    (((({} : OpSchema).FillUsing (BinaryLogicDocGenerator "equal"))
      |>.TypeConstraint "T" (.list ["tensor(bool)", "tensor(int32)", "tensor(int64)"]))
      |>.TypeConstraint "T1" (.list ["tensor(bool)"]))

/-- Registration of `Not` (logical/defs.cc lines 80-88). -/
def Not : OpSchema :=
  ONNX_OPERATOR_SCHEMA "Not" ONNX_DOMAIN 1
    ((((({} : OpSchema).Input 0 "X" "T" .Single)
      |>.Output 0 "Y" "T" .Single)
      |>.TypeConstraint "T" (.list ["tensor(bool)"]))
      |>.TypeAndShapeInferenceFunction logicalOpInference)

end Schemas

/-! ## `onnx/defs/reduction/defs.cc` -/

/-- The schema fragment `ReduceDocGenerator(name)` (reduction/defs.cc lines
9-38).  It attaches no inference function. -/
def ReduceDocGenerator (_name : String) : OpSchema → OpSchema := fun schema =>
  ((((schema.Attr "axes" .INTS OPTIONAL)
    |>.AttrDefault "keepdims" .INT (.i 1))
    |>.Input 0 "data" "T" .Single)
    |>.Output 0 "reduced" "T" .Single)
    |>.TypeConstraint "T" .high_precision_numeric_types

/-- The schema fragment `ArgReduceDocGenerator(name)` (reduction/defs.cc lines
70-100).  It attaches no inference function. -/
def ArgReduceDocGenerator (_name : String) : OpSchema → OpSchema := fun schema =>
  ((((schema.AttrDefault "axis" .INT (.i 0))
    |>.AttrDefault "keepdims" .INT (.i 1))
    |>.Input 0 "data" "T" .Single)
    |>.Output 0 "reduced" "tensor(int64)" .Single)
    |>.TypeConstraint "T" .all_numeric_types

namespace Schemas

/-- Registration of `ReduceMax` (reduction/defs.cc). -/
def ReduceMax : OpSchema :=
  ONNX_OPERATOR_SCHEMA "ReduceMax" ONNX_DOMAIN 1
    (({} : OpSchema).FillUsing (ReduceDocGenerator "max"))

/-- Registration of `ReduceMin` (reduction/defs.cc). -/
def ReduceMin : OpSchema :=
  ONNX_OPERATOR_SCHEMA "ReduceMin" ONNX_DOMAIN 1
    (({} : OpSchema).FillUsing (ReduceDocGenerator "min"))

/-- Registration of `ReduceSum` (reduction/defs.cc). -/
def ReduceSum : OpSchema :=
  ONNX_OPERATOR_SCHEMA "ReduceSum" ONNX_DOMAIN 1
    (({} : OpSchema).FillUsing (ReduceDocGenerator "sum"))

/-- Registration of `ReduceSumSquare` (reduction/defs.cc). -/
def ReduceSumSquare : OpSchema :=
  ONNX_OPERATOR_SCHEMA "ReduceSumSquare" ONNX_DOMAIN 1
    (({} : OpSchema).FillUsing (ReduceDocGenerator "sum square"))

/-- Registration of `ReduceMean` (reduction/defs.cc). -/
def ReduceMean : OpSchema :=
  ONNX_OPERATOR_SCHEMA "ReduceMean" ONNX_DOMAIN 1
    (({} : OpSchema).FillUsing (ReduceDocGenerator "mean"))

/-- Registration of `ReduceProd` (reduction/defs.cc). -/
def ReduceProd : OpSchema :=
  ONNX_OPERATOR_SCHEMA "ReduceProd" ONNX_DOMAIN 1
    (({} : OpSchema).FillUsing (ReduceDocGenerator "product"))

/-- Registration of `ReduceLogSum` (reduction/defs.cc). -/
def ReduceLogSum : OpSchema :=
  ONNX_OPERATOR_SCHEMA "ReduceLogSum" ONNX_DOMAIN 1
    (({} : OpSchema).FillUsing (ReduceDocGenerator "log sum"))

/-- Registration of `ReduceLogSumExp` (reduction/defs.cc). -/
def ReduceLogSumExp : OpSchema :=
  ONNX_OPERATOR_SCHEMA "ReduceLogSumExp" ONNX_DOMAIN 1
    (({} : OpSchema).FillUsing (ReduceDocGenerator "log sum exponent"))

/-- Registration of `ReduceL1` (reduction/defs.cc). -/
def ReduceL1 : OpSchema :=
  ONNX_OPERATOR_SCHEMA "ReduceL1" ONNX_DOMAIN 1
    (({} : OpSchema).FillUsing (ReduceDocGenerator "L1 norm"))

/-- Registration of `ReduceL2` (reduction/defs.cc). -/
def ReduceL2 : OpSchema :=
  ONNX_OPERATOR_SCHEMA "ReduceL2" ONNX_DOMAIN 1
    (({} : OpSchema).FillUsing (ReduceDocGenerator "L2 norm"))

/-- Registration of `ArgMax` (reduction/defs.cc). -/
def ArgMax : OpSchema :=
  ONNX_OPERATOR_SCHEMA "ArgMax" ONNX_DOMAIN 1
    (({} : OpSchema).FillUsing (ArgReduceDocGenerator "max"))

/-- Registration of `ArgMin` (reduction/defs.cc). -/
def ArgMin : OpSchema :=
  ONNX_OPERATOR_SCHEMA "ArgMin" ONNX_DOMAIN 1
    (({} : OpSchema).FillUsing (ArgReduceDocGenerator "min"))

end Schemas

/-- The schemas of `onnx/defs/experiments/defs.cc`, in declaration order. -/
def experimentsSchemas : List OpSchema :=
  [Schemas.Affine, Schemas.ThresholdedRelu, Schemas.ScaledTanh, Schemas.ParametricSoftplus,
   Schemas.ConstantFill, Schemas.GivenTensorFill, Schemas.Scale, Schemas.GRUUnit,
   Schemas.ATen, Schemas.ImageScaler, Schemas.MeanVarianceNormalization, Schemas.Crop]

/-- The schemas of `onnx/defs/logical/defs.cc`, in declaration order. -/
def logicalSchemas : List OpSchema :=
  [Schemas.And, Schemas.Or, Schemas.Xor, Schemas.Greater, Schemas.Less, Schemas.Equal,
   Schemas.Not]

/-- The schemas of `onnx/defs/reduction/defs.cc`, in declaration order. -/
def reductionSchemas : List OpSchema :=
  [Schemas.ReduceMax, Schemas.ReduceMin, Schemas.ReduceSum, Schemas.ReduceSumSquare,
   Schemas.ReduceMean, Schemas.ReduceProd, Schemas.ReduceLogSum, Schemas.ReduceLogSumExp,
   Schemas.ReduceL1, Schemas.ReduceL2, Schemas.ArgMax, Schemas.ArgMin]

/-- Every schema the three files declare. -/
def allSchemas : List OpSchema :=
  experimentsSchemas ++ logicalSchemas ++ reductionSchemas

/-! ## The schema registry -/

/-- The failure of a registration. -/
inductive RegistryError
  | duplicateIdentity (domain name : String) (version : Nat)
  deriving DecidableEq, Repr

/-- Modelled from the spec: `SchemaRegistry`, the "map from (domain, name,
version) to OperatorSchema"; the registration code is not among the sources. -/
structure SchemaRegistry where
  schemas : List OpSchema

namespace SchemaRegistry

/-- The registry before any registration. -/
def empty : SchemaRegistry := ⟨[]⟩

/-- Modelled from the spec: `lookup(domain, name, version)`, a pure read with
"exact version match required"; `none` is not-found. -/
def lookup (registry : SchemaRegistry) (domain name : String) (version : Nat) :
    Option OpSchema :=
  registry.schemas.find? (fun schema => schema.identity == (domain, name, version))

/-- Modelled from the spec: `register(schema)`, which "fails fatally on
duplicate (domain, name, version) identity". -/
def register (registry : SchemaRegistry) (schema : OpSchema) :
    Except RegistryError SchemaRegistry :=
  match registry.lookup schema.domain schema.name schema.since_version with
  | some _ => .error (.duplicateIdentity schema.domain schema.name schema.since_version)
  | none => .ok ⟨registry.schemas ++ [schema]⟩

/-- Registration of a list of schemas one after the other, stopping at the
first failure. -/
def registerAll (registry : SchemaRegistry) : List OpSchema → Except RegistryError SchemaRegistry
  | [] => .ok registry
  | schema :: rest =>
    match registry.register schema with
    | .error e => .error e
    | .ok registry1 => registerAll registry1 rest

end SchemaRegistry

/-! ## The calls of the output setters during one invocation -/

/-- One call of a setter of `schema.h` on an output descriptor:
`updateOutputElemType` or `updateOutputShape`, with its arguments. -/
inductive OutputWrite
  | elem_type (outputIndex : Nat) (elemType : TensorProto.DataType)
  | shape (outputIndex : Nat) (shape : TensorShapeProto)
  deriving DecidableEq, Repr

/-- The call sets the element type of output `k`. -/
def OutputWrite.setsElemType (k : Nat) : OutputWrite → Bool
  | .elem_type outputIndex _ => outputIndex == k
  | .shape _ _ => false

/-- The call installs the shape of output `k`. -/
def OutputWrite.setsShape (k : Nat) : OutputWrite → Bool
  | .elem_type _ _ => false
  | .shape outputIndex _ => outputIndex == k

/-- One invocation together with the setter calls made in its course, in
order; the calls are kept also when the invocation ends in a report. -/
structure TracedRun where
  writes : List OutputWrite
  result : Except InferenceError InferenceContext

namespace TracedRun

/-- A step that calls no setter. -/
def silent (result : Except InferenceError InferenceContext) : TracedRun :=
  ⟨[], result⟩

/-- Sequencing: the statements `next` run on the context left by `run`, unless
`run` ended in a report. -/
def andThen (run : TracedRun) (next : InferenceContext → TracedRun) : TracedRun :=
  match run.result with
  | .error e => ⟨run.writes, .error e⟩
  | .ok ctx => ⟨run.writes ++ (next ctx).writes, (next ctx).result⟩

end TracedRun

namespace Traced

/-- The setter `updateOutputElemType`, recording its call. -/
def updateOutputElemType (ctx : InferenceContext) (outputIndex : Nat)
    (elemType : TensorProto.DataType) : TracedRun :=
  ⟨[.elem_type outputIndex elemType], ONNX.updateOutputElemType ctx outputIndex elemType⟩

/-- The setter `updateOutputShape`, recording its call. -/
def updateOutputShape (ctx : InferenceContext) (outputIndex : Nat)
    (shape : TensorShapeProto) : TracedRun :=
  ⟨[.shape outputIndex shape], ONNX.updateOutputShape ctx outputIndex shape⟩

/-- The helper `propagateElemTypeFromInputToOutput` with its setter calls. -/
def propagateElemTypeFromInputToOutput (ctx : InferenceContext)
    (inputIndex outputIndex : Nat) : TracedRun :=
  match ctx.getInputType inputIndex with
  | none => .silent (.ok ctx)
  | some t =>
    match t.elem_type with
    | none => .silent (.ok ctx)
    | some e => updateOutputElemType ctx outputIndex e

/-- The helper `propagateShapeFromInputToOutput` with its setter calls. -/
def propagateShapeFromInputToOutput (ctx : InferenceContext)
    (inputIndex outputIndex : Nat) : TracedRun :=
  match ctx.getInputType inputIndex with
  | none => .silent (.ok ctx)
  | some t =>
    match t.shape with
    | none => .silent (.ok ctx)
    | some sh => updateOutputShape ctx outputIndex sh

/-- The helper `propagateElemTypeFromAttributeToOutput` with its setter
calls. -/
def propagateElemTypeFromAttributeToOutput (ctx : InferenceContext)
    (attributeName : String) (outputIndex : Nat) (default_value : TensorProto.DataType) :
    TracedRun :=
  match ctx.getAttribute attributeName with
  | none => updateOutputElemType ctx outputIndex default_value
  | some (.i v) => updateOutputElemType ctx outputIndex ⟨v⟩
  | some _ => .silent (.error (.attributeKindMismatch attributeName))

/-- The helper `propagateShapeFromAttributeToOutput` with its setter calls. -/
def propagateShapeFromAttributeToOutput (ctx : InferenceContext)
    (attributeName : String) (outputIndex : Nat) : TracedRun :=
  match ctx.getAttribute attributeName with
  | none => .silent (.ok ctx)
  | some (.ints vs) =>
    match shapeOfInts vs with
    | none => .silent (.ok ctx)
    | some shape => updateOutputShape ctx outputIndex shape
  | some _ => .silent (.error (.attributeKindMismatch attributeName))

/-- The statements after the first line of both fill closures
(experiments/defs.cc lines 148-163 and 180-197) with their setter calls. -/
def fillShapeInference (ctx : InferenceContext) : TracedRun :=
  if (ctx.getAttribute "shape").isSome then
    propagateShapeFromAttributeToOutput ctx "shape" 0
  else
    match getAttribute ctx "input_as_shape" 0 with
    | .error e => .silent (.error e)
    | .ok input_as_shape =>
      if input_as_shape != 0 then .silent (.ok ctx)
      else
        match getRepeatedAttribute ctx "extra_shape" with
        | .error e => .silent (.error e)
        | .ok extra_shape =>
          if hasInputShape ctx 0 then
            match readInputShape ctx 0 with
            | .error e => .silent (.error e)
            | .ok shape =>
              match appendExtraShape shape extra_shape with
              | none => .silent (.ok ctx)
              | some shape => updateOutputShape ctx 0 shape
          else .silent (.ok ctx)

/-- The `ConstantFill` closure (experiments/defs.cc lines 146-164) with its
setter calls. -/
def ConstantFill_inference (ctx : InferenceContext) : TracedRun :=
  (propagateElemTypeFromAttributeToOutput ctx "dtype" 0 TensorProto.FLOAT).andThen
    fillShapeInference

/-- The `GivenTensorFill` closure (experiments/defs.cc lines 178-198) with its
setter calls. -/
def GivenTensorFill_inference (ctx : InferenceContext) : TracedRun :=
  (propagateElemTypeFromInputToOutput ctx 0 0).andThen fillShapeInference

/-- The function `logicalOpInference` (logical/defs.cc lines 8-13) with its
setter calls. -/
def logicalOpInference (ctx : InferenceContext) : TracedRun :=
  (updateOutputElemType ctx 0 TensorProto.BOOL).andThen fun ctx =>
    if hasInputShape ctx 0 then propagateShapeFromInputToOutput ctx 0 0
    else .silent (.ok ctx)

end Traced

/-! ## Concrete operator instances -/

/-- An instance carrying `shape = [4, 5]`, `extra_shape = [7]` and a non-zero
`input_as_shape`, over an input of shape `[2, 3]`. -/
def shapeAttrCtx : InferenceContext :=
  { attributes := [("shape", .ints [4, 5]), ("extra_shape", .ints [7]),
                   ("input_as_shape", .i 1)],
    inputs := [some ⟨some TensorProto.FLOAT, some ⟨[.dim_value 2, .dim_value 3]⟩⟩],
    outputs := [⟨none, none⟩] }

/-- An instance with `extra_shape = [5]` over an input of shape `[2, 3]`. -/
def extendCtx : InferenceContext :=
  { attributes := [("extra_shape", .ints [5])],
    inputs := [some ⟨some TensorProto.FLOAT, some ⟨[.dim_value 2, .dim_value 3]⟩⟩],
    outputs := [⟨none, none⟩] }

/-- An instance with `extra_shape = [5, -1]` over an input of shape `[2, 3]`. -/
def negativeExtraCtx : InferenceContext :=
  { attributes := [("extra_shape", .ints [5, -1])],
    inputs := [some ⟨some TensorProto.FLOAT, some ⟨[.dim_value 2, .dim_value 3]⟩⟩],
    outputs := [⟨none, none⟩] }

/-- An instance with `input_as_shape = 1` and `extra_shape = [5]` over an input
of shape `[2, 3]`. -/
def dynamicShapeCtx : InferenceContext :=
  { attributes := [("input_as_shape", .i 1), ("extra_shape", .ints [5])],
    inputs := [some ⟨some TensorProto.FLOAT, some ⟨[.dim_value 2, .dim_value 3]⟩⟩],
    outputs := [⟨none, none⟩] }

/-- An instance with `dtype = 7` over a float input. -/
def dtypeCtx : InferenceContext :=
  { attributes := [("dtype", .i 7)],
    inputs := [some ⟨some TensorProto.FLOAT, some ⟨[.dim_value 2, .dim_value 3]⟩⟩],
    outputs := [⟨none, none⟩] }

/-- A float32 input of shape `[1, 3, 4]` and an attribute `alpha`. -/
def identityCtx : InferenceContext :=
  { attributes := [("alpha", .f Float32.one)],
    inputs := [some ⟨some TensorProto.FLOAT,
                     some ⟨[.dim_value 1, .dim_value 3, .dim_value 4]⟩⟩],
    outputs := [⟨none, none⟩] }

/-- Two inputs of element type FLOAT, the first of shape `[2, 3]`. -/
def compareCtx : InferenceContext :=
  { attributes := [("broadcast", .i 1)],
    inputs := [some ⟨some TensorProto.FLOAT, some ⟨[.dim_value 2, .dim_value 3]⟩⟩,
               some ⟨some TensorProto.FLOAT, some ⟨[.dim_value 3]⟩⟩],
    outputs := [⟨none, none⟩] }

/-- An input of shape `[2, 3, 4]` with `axes = [1]` and the given `keepdims`;
output 0 is still unresolved. -/
def reduceCtx (keepdims : Int) : InferenceContext :=
  { attributes := [("axes", .ints [1]), ("keepdims", .i keepdims)],
    inputs := [some ⟨some TensorProto.FLOAT,
                     some ⟨[.dim_value 2, .dim_value 3, .dim_value 4]⟩⟩],
    outputs := [⟨none, none⟩] }

/-- A float input of shape `[2, 3]` with `axis = 0`; output 0 is still
unresolved. -/
def argReduceCtx : InferenceContext :=
  { attributes := [("axis", .i 0)],
    inputs := [some ⟨some TensorProto.FLOAT, some ⟨[.dim_value 2, .dim_value 3]⟩⟩],
    outputs := [⟨none, none⟩] }

/-- The same instance with `input_as_shape` explicitly set to 0. -/
def withInputAsShapeZero (ctx : InferenceContext) : InferenceContext :=
  { ctx with attributes := ("input_as_shape", .i 0) :: ctx.attributes }

/-- An instance with `extra_shape = [5]` and no `input_as_shape`, over an input
of shape `[2, 3]`. -/
def noFlagCtx : InferenceContext :=
  { attributes := [("extra_shape", .ints [5]), ("dtype", .i 6)],
    inputs := [some ⟨some TensorProto.FLOAT, some ⟨[.dim_value 2, .dim_value 3]⟩⟩],
    outputs := [⟨none, none⟩] }

/-- An instance with `extra_shape = [5]` whose input 0 has a known element type
but unknown rank. -/
def unknownRankCtx : InferenceContext :=
  { attributes := [("extra_shape", .ints [5])],
    inputs := [some ⟨some TensorProto.FLOAT, none⟩],
    outputs := [⟨none, none⟩] }

/-- The context `compareCtx` with another right operand, of shape `[4, 2, 3]`
and element type INT64, and other attributes. -/
def compareOtherCtx : InferenceContext :=
  { attributes := [("broadcast", .i 0), ("axis", .i 1)],
    inputs := [some ⟨some TensorProto.FLOAT, some ⟨[.dim_value 2, .dim_value 3]⟩⟩,
               some ⟨some TensorProto.INT64,
                     some ⟨[.dim_value 4, .dim_value 2, .dim_value 3]⟩⟩],
    outputs := [⟨none, none⟩] }

/-- An instance without attributes over a float input of shape `[2, 3]`. -/
def plainCtx : InferenceContext :=
  { attributes := [],
    inputs := [some ⟨some TensorProto.FLOAT, some ⟨[.dim_value 2, .dim_value 3]⟩⟩],
    outputs := [⟨none, none⟩] }

/-- An instance with `extra_shape = [5]` whose optional input 0 is not
supplied. -/
def absentInputCtx : InferenceContext :=
  { attributes := [("extra_shape", .ints [5])],
    inputs := [none],
    outputs := [⟨none, none⟩] }

/-- An instance with `shape = [5, -1]` over an input whose dimensions are all
non-negative. -/
def negativeShapeCtx : InferenceContext :=
  { attributes := [("shape", .ints [5, -1])],
    inputs := [some ⟨some TensorProto.FLOAT, some ⟨[.dim_value 2, .dim_value 3]⟩⟩],
    outputs := [⟨none, none⟩] }

/-- An instance with `dtype = 11`, the enum code of DOUBLE. -/
def doubleCtx : InferenceContext :=
  { attributes := [("dtype", .i 11)],
    inputs := [none],
    outputs := [⟨none, none⟩] }

/-! ## Basic facts about the helpers -/

theorem kind_eq_INT {v : AttributeValue} (h : v.kind = .INT) : ∃ n, v = .i n := by
  cases v <;> simp [AttributeValue.kind] at h ⊢

theorem kind_eq_INTS {v : AttributeValue} (h : v.kind = .INTS) : ∃ l, v = .ints l := by
  cases v <;> simp [AttributeValue.kind] at h ⊢

theorem updateOutputElemType_cons (a : List (String × AttributeValue))
    (i : List (Option TypeProto)) (o : TypeProto) (os : List TypeProto)
    (e : TensorProto.DataType) :
    updateOutputElemType ⟨a, i, o :: os⟩ 0 e = .ok ⟨a, i, ⟨some e, o.shape⟩ :: os⟩ := rfl

theorem updateOutputShape_cons (a : List (String × AttributeValue))
    (i : List (Option TypeProto)) (o : TypeProto) (os : List TypeProto)
    (sh : TensorShapeProto) :
    updateOutputShape ⟨a, i, o :: os⟩ 0 sh = .ok ⟨a, i, ⟨o.elem_type, some sh⟩ :: os⟩ := rfl

theorem ConstantFill_inference_eq (ctx : InferenceContext) :
    ConstantFill_inference ctx =
      match propagateElemTypeFromAttributeToOutput ctx "dtype" 0 TensorProto.FLOAT with
      | .error e => .error e
      | .ok ctx1 => fillShapeInference ctx1 := rfl

theorem GivenTensorFill_inference_eq (ctx : InferenceContext) :
    GivenTensorFill_inference ctx =
      match propagateElemTypeFromInputToOutput ctx 0 0 with
      | .error e => .error e
      | .ok ctx1 => fillShapeInference ctx1 := rfl

/-- All entries non-negative: the loop runs to its end and has appended every
entry. -/
theorem appendExtraShape_nonneg (es : List Int) (sh : TensorShapeProto)
    (h : ∀ e ∈ es, 0 ≤ e) :
    appendExtraShape sh es = some ⟨sh.dim ++ es.map Dimension.dim_value⟩ := by
  induction es generalizing sh with
  | nil => simp [appendExtraShape]
  | cons e es ih =>
    have he : ¬ e < 0 := not_lt.mpr (h e (List.mem_cons_self _ _))
    have ht : ∀ x ∈ es, 0 ≤ x := fun x hx => h x (List.mem_cons_of_mem _ hx)
    simp [appendExtraShape, he, ih _ ht, TensorShapeProto.add_dim_value]

/-- A negative entry anywhere: the loop leaves through its `return`. -/
theorem appendExtraShape_negative (es : List Int) (sh : TensorShapeProto)
    (h : ∃ e ∈ es, e < 0) : appendExtraShape sh es = none := by
  induction es generalizing sh with
  | nil => simp at h
  | cons e es ih =>
    by_cases he : e < 0
    · simp [appendExtraShape, he]
    · have ht : ∃ x ∈ es, x < 0 := by
        obtain ⟨x, hx, hneg⟩ := h
        rcases List.mem_cons.mp hx with rfl | hx
        · exact absurd hneg he
        · exact ⟨x, hx, hneg⟩
      simp [appendExtraShape, he, ih _ ht]

/-! ## The two fill closures, line by line -/

/-- The instances of `ConstantFill`. -/
theorem ConstantFill_isInstance (ctx : InferenceContext)
    (h : Schemas.ConstantFill.isInstance ctx = true) :
      (∀ v, ctx.getAttribute "dtype" = some v → ∃ n, v = .i n) ∧
      (∀ v, ctx.getAttribute "shape" = some v → ∃ l, v = .ints l) ∧
      (∀ v, ctx.getAttribute "extra_shape" = some v → ∃ l, v = .ints l) ∧
      (∀ v, ctx.getAttribute "input_as_shape" = some v → ∃ n, v = .i n) ∧
      0 < ctx.outputs.length := by
  simp only [OpSchema.isInstance, Schemas.ConstantFill, ONNX_OPERATOR_SCHEMA,
    OpSchema.SetSupportLevel, OpSchema.AttrDefault, OpSchema.Attr, OpSchema.Input,
    OpSchema.Output, OpSchema.TypeConstraint, OpSchema.TypeAndShapeInferenceFunction,
    List.nil_append, List.cons_append, List.all_cons, List.all_nil, Bool.and_true,
    Bool.and_eq_true, decide_eq_true_eq] at h
  obtain ⟨⟨-, h2, h3, h4, h5⟩, h6⟩ := h
  refine ⟨?_, ?_, ?_, ?_, h6⟩ <;> intro v hv
  · exact kind_eq_INT (by simpa [hv] using h2)
  · exact kind_eq_INTS (by simpa [hv] using h3)
  · exact kind_eq_INTS (by simpa [hv] using h4)
  · exact kind_eq_INT (by simpa [hv] using h5)

/-- The instances of `GivenTensorFill`. -/
theorem GivenTensorFill_isInstance (ctx : InferenceContext)
    (h : Schemas.GivenTensorFill.isInstance ctx = true) :
      (∀ v, ctx.getAttribute "shape" = some v → ∃ l, v = .ints l) ∧
      (∀ v, ctx.getAttribute "extra_shape" = some v → ∃ l, v = .ints l) ∧
      (∀ v, ctx.getAttribute "input_as_shape" = some v → ∃ n, v = .i n) ∧
      0 < ctx.outputs.length := by
  simp only [OpSchema.isInstance, Schemas.GivenTensorFill, ONNX_OPERATOR_SCHEMA,
    OpSchema.SetSupportLevel, OpSchema.AttrDefault, OpSchema.Attr, OpSchema.Input,
    OpSchema.Output, OpSchema.TypeConstraint, OpSchema.TypeAndShapeInferenceFunction,
    List.nil_append, List.cons_append, List.all_cons, List.all_nil, Bool.and_true,
    Bool.and_eq_true, decide_eq_true_eq] at h
  obtain ⟨⟨-, h3, h5, h4⟩, h6⟩ := h
  refine ⟨?_, ?_, ?_, h6⟩ <;> intro v hv
  · exact kind_eq_INTS (by simpa [hv] using h3)
  · exact kind_eq_INTS (by simpa [hv] using h4)
  · exact kind_eq_INT (by simpa [hv] using h5)

/-- First line of the `ConstantFill` closure on a context with an output slot
0 and a well-kinded `dtype`: only the element type of output 0 changes. -/
theorem ConstantFill_first_line (a : List (String × AttributeValue))
    (i : List (Option TypeProto)) (o : TypeProto) (os : List TypeProto)
    (hd : ∀ v, a.lookup "dtype" = some v → ∃ n, v = .i n) :
    ∃ o1 : TypeProto, o1.shape = o.shape ∧
      o1.elem_type = some (match a.lookup "dtype" with
                           | some (.i v) => ⟨v⟩
                           | _ => TensorProto.FLOAT) ∧
      propagateElemTypeFromAttributeToOutput ⟨a, i, o :: os⟩ "dtype" 0 TensorProto.FLOAT
        = .ok ⟨a, i, o1 :: os⟩ := by
  cases hdt : a.lookup "dtype" with
  | none =>
    exact ⟨⟨some TensorProto.FLOAT, o.shape⟩, rfl, rfl, by
      simp [propagateElemTypeFromAttributeToOutput, InferenceContext.getAttribute, hdt,
        updateOutputElemType_cons]⟩
  | some v =>
    obtain ⟨n, rfl⟩ := hd v hdt
    exact ⟨⟨some ⟨n⟩, o.shape⟩, rfl, rfl, by
      simp [propagateElemTypeFromAttributeToOutput, InferenceContext.getAttribute, hdt,
        updateOutputElemType_cons]⟩

/-- First line of the `GivenTensorFill` closure on a context with an output
slot 0: only the element type of output 0 can change. -/
theorem GivenTensorFill_first_line (a : List (String × AttributeValue))
    (i : List (Option TypeProto)) (o : TypeProto) (os : List TypeProto) :
    ∃ o1 : TypeProto, o1.shape = o.shape ∧
      propagateElemTypeFromInputToOutput ⟨a, i, o :: os⟩ 0 0 = .ok ⟨a, i, o1 :: os⟩ := by
  unfold propagateElemTypeFromInputToOutput
  cases InferenceContext.getInputType ⟨a, i, o :: os⟩ 0 with
  | none => exact ⟨o, rfl, rfl⟩
  | some t =>
    cases het : t.elem_type with
    | none => exact ⟨o, rfl, by simp only [het]⟩
    | some e => exact ⟨⟨some e, o.shape⟩, rfl, by simp only [het, updateOutputElemType_cons]⟩

/-- A sequence without negative entry has the ShapeDescriptor of its
entries. -/
theorem shapeOfInts_nonneg (vs : List Int) (h : ∀ e ∈ vs, 0 ≤ e) :
    shapeOfInts vs = some ⟨vs.map Dimension.dim_value⟩ := by
  have hall : vs.all (fun v => decide (0 ≤ v)) = true := by
    simpa [List.all_eq_true] using h
  simp [shapeOfInts, hall]

/-- A ShapeDescriptor built from a sequence holds its entries, none of which is
negative. -/
theorem shapeOfInts_some (vs : List Int) (sh : TensorShapeProto)
    (h : shapeOfInts vs = some sh) :
    sh = ⟨vs.map Dimension.dim_value⟩ ∧ ∀ e ∈ vs, 0 ≤ e := by
  unfold shapeOfInts at h
  split at h
  · rename_i hall
    injection h with h
    exact ⟨h.symm, by simpa [List.all_eq_true] using hall⟩
  · cases h

/-- A sequence with a negative entry has no ShapeDescriptor. -/
theorem shapeOfInts_negative (vs : List Int) (h : ∃ e ∈ vs, e < 0) :
    shapeOfInts vs = none := by
  cases hs : shapeOfInts vs with
  | none => rfl
  | some sh =>
    obtain ⟨e, hmem, hneg⟩ := h
    exact absurd ((shapeOfInts_some vs sh hs).2 e hmem) (not_le.mpr hneg)

/-- The `shape` attribute path, whatever the entries are. -/
theorem fillShapeInference_shape_cases (a : List (String × AttributeValue))
    (i : List (Option TypeProto)) (o : TypeProto) (os : List TypeProto) (dims : List Int)
    (hshape : a.lookup "shape" = some (.ints dims)) :
    fillShapeInference ⟨a, i, o :: os⟩
      = .ok ⟨a, i, ⟨o.elem_type, match shapeOfInts dims with
                                 | some sh => some sh
                                 | none => o.shape⟩ :: os⟩ := by
  cases hsh : shapeOfInts dims <;>
    simp [fillShapeInference, InferenceContext.getAttribute, hshape,
      propagateShapeFromAttributeToOutput, updateOutputShape_cons, hsh]

/-- The `shape` attribute path for entries that are all non-negative. -/
theorem fillShapeInference_shape (a : List (String × AttributeValue))
    (i : List (Option TypeProto)) (o : TypeProto) (os : List TypeProto) (dims : List Int)
    (hshape : a.lookup "shape" = some (.ints dims)) (hnonneg : ∀ e ∈ dims, 0 ≤ e) :
    fillShapeInference ⟨a, i, o :: os⟩
      = .ok ⟨a, i, ⟨o.elem_type, some ⟨dims.map Dimension.dim_value⟩⟩ :: os⟩ := by
  rw [fillShapeInference_shape_cases a i o os dims hshape, shapeOfInts_nonneg dims hnonneg]

/-- The dynamic-shape path. -/
theorem fillShapeInference_input_as_shape (c : InferenceContext) (v : Int)
    (hshape : c.getAttribute "shape" = none)
    (hias : c.getAttribute "input_as_shape" = some (.i v)) (hv : v ≠ 0) :
    fillShapeInference c = .ok c := by
  simp [fillShapeInference, hshape, getAttribute, hias, hv]

/-- The shape-extension path: what is read and what is done with it. -/
theorem fillShapeInference_extend (a : List (String × AttributeValue))
    (i : List (Option TypeProto)) (o : TypeProto) (os : List TypeProto) (es : List Int)
    (hshape : a.lookup "shape" = none)
    (hias : a.lookup "input_as_shape" = none ∨ a.lookup "input_as_shape" = some (.i 0))
    (hextra : a.lookup "extra_shape" = some (.ints es) ∨
      (a.lookup "extra_shape" = none ∧ es = [])) :
    fillShapeInference ⟨a, i, o :: os⟩ =
      match (InferenceContext.getInputType ⟨a, i, o :: os⟩ 0).bind TypeProto.shape with
      | none => .ok ⟨a, i, o :: os⟩
      | some sh =>
        match appendExtraShape sh es with
        | none => .ok ⟨a, i, o :: os⟩
        | some sh1 => .ok ⟨a, i, ⟨o.elem_type, some sh1⟩ :: os⟩ := by
  have h1 : getAttribute ⟨a, i, o :: os⟩ "input_as_shape" 0 = .ok 0 := by
    rcases hias with h | h <;> simp [getAttribute, InferenceContext.getAttribute, h]
  have h2 : getRepeatedAttribute ⟨a, i, o :: os⟩ "extra_shape" = .ok es := by
    rcases hextra with h | ⟨h, rfl⟩ <;>
      simp [getRepeatedAttribute, InferenceContext.getAttribute, h]
  simp only [fillShapeInference, InferenceContext.getAttribute, hshape, h1, h2]
  cases hin : InferenceContext.getInputType ⟨a, i, o :: os⟩ 0 with
  | none => simp [hasInputShape, hin]
  | some t =>
    cases hsh : t.shape with
    | none => simp [hasInputShape, hin, hsh]
    | some sh =>
      simp only [hasInputShape, hin, hsh, readInputShape, Option.bind]
      cases appendExtraShape sh es <;> simp [updateOutputShape_cons]

/-- Both fill closures at once: whatever the common part establishes on the
context left by the first line holds of the result of either closure, on
every instance of the respective schema. -/
theorem fill_closures (ctx : InferenceContext) (P : InferenceContext → Prop)
    (hP : ∀ o o1 os, ctx.outputs = o :: os → o1.shape = o.shape →
      ∃ ctx1, fillShapeInference ⟨ctx.attributes, ctx.inputs, o1 :: os⟩ = .ok ctx1 ∧ P ctx1) :
    (Schemas.ConstantFill.isInstance ctx = true →
      ∃ ctx1, Schemas.ConstantFill.tensor_inference_function ctx = .ok ctx1 ∧ P ctx1) ∧
    (Schemas.GivenTensorFill.isInstance ctx = true →
      ∃ ctx1, Schemas.GivenTensorFill.tensor_inference_function ctx = .ok ctx1 ∧ P ctx1) := by
  constructor
  · intro hinst
    obtain ⟨hd, -, -, -, ho⟩ := ConstantFill_isInstance ctx hinst
    obtain ⟨a, i, outs⟩ := ctx
    cases outs with
    | nil => simp at ho
    | cons o os =>
      change ∃ ctx1, ConstantFill_inference _ = .ok ctx1 ∧ _
      obtain ⟨o1, ho1, -, hstep⟩ := ConstantFill_first_line a i o os hd
      rw [ConstantFill_inference_eq, hstep]
      exact hP o o1 os rfl ho1
  · intro hinst
    obtain ⟨-, -, -, ho⟩ := GivenTensorFill_isInstance ctx hinst
    obtain ⟨a, i, outs⟩ := ctx
    cases outs with
    | nil => simp at ho
    | cons o os =>
      change ∃ ctx1, GivenTensorFill_inference _ = .ok ctx1 ∧ _
      obtain ⟨o1, ho1, hstep⟩ := GivenTensorFill_first_line a i o os
      rw [GivenTensorFill_inference_eq, hstep]
      exact hP o o1 os rfl ho1

/-- The common part of the fill closures returns on every context with an
output slot 0 and well-kinded attributes, and changes at most the shape of
output 0. -/
theorem fillShapeInference_returns (a : List (String × AttributeValue))
    (i : List (Option TypeProto)) (o : TypeProto) (os : List TypeProto)
    (hs : ∀ v, a.lookup "shape" = some v → ∃ l, v = .ints l)
    (he : ∀ v, a.lookup "extra_shape" = some v → ∃ l, v = .ints l)
    (hi : ∀ v, a.lookup "input_as_shape" = some v → ∃ n, v = .i n) :
    ∃ sh1, fillShapeInference ⟨a, i, o :: os⟩ = .ok ⟨a, i, ⟨o.elem_type, sh1⟩ :: os⟩ := by
  cases hshape : a.lookup "shape" with
  | some v =>
    obtain ⟨dims, rfl⟩ := hs v hshape
    exact ⟨_, fillShapeInference_shape_cases a i o os dims hshape⟩
  | none =>
    have hext : ∃ es, a.lookup "extra_shape" = some (.ints es) ∨
        (a.lookup "extra_shape" = none ∧ es = []) := by
      cases hx : a.lookup "extra_shape" with
      | none => exact ⟨[], Or.inr ⟨rfl, rfl⟩⟩
      | some v =>
        obtain ⟨l, rfl⟩ := he v hx
        exact ⟨l, Or.inl rfl⟩
    obtain ⟨es, hextra⟩ := hext
    have hext_case : ∀ hias : a.lookup "input_as_shape" = none ∨
        a.lookup "input_as_shape" = some (.i 0),
        ∃ sh1, fillShapeInference ⟨a, i, o :: os⟩ = .ok ⟨a, i, ⟨o.elem_type, sh1⟩ :: os⟩ := by
      intro hias
      rw [fillShapeInference_extend a i o os es hshape hias hextra]
      cases (InferenceContext.getInputType ⟨a, i, o :: os⟩ 0).bind TypeProto.shape with
      | none => exact ⟨o.shape, rfl⟩
      | some sh =>
        simp only
        cases appendExtraShape sh es with
        | none => exact ⟨o.shape, rfl⟩
        | some sh1 => exact ⟨some sh1, rfl⟩
    cases hias : a.lookup "input_as_shape" with
    | none => exact hext_case (Or.inl hias)
    | some v =>
      obtain ⟨n, rfl⟩ := hi v hias
      by_cases hn : n = 0
      · subst hn
        exact hext_case (Or.inr hias)
      · exact ⟨o.shape, fillShapeInference_input_as_shape ⟨a, i, o :: os⟩ n hshape hias hn⟩

/-! ## Identity propagation and the logical operators -/

/-- Identity propagation over an input 0 of known element type. -/
theorem propagateShapeAndTypeFromFirstInput_known (a : List (String × AttributeValue))
    (i : List (Option TypeProto)) (o : TypeProto) (os : List TypeProto) (t : TypeProto)
    (e : TensorProto.DataType)
    (hin : InferenceContext.getInputType ⟨a, i, o :: os⟩ 0 = some t)
    (he : t.elem_type = some e) :
    propagateShapeAndTypeFromFirstInput ⟨a, i, o :: os⟩
      = .ok ⟨a, i, ⟨some e, match t.shape with
                            | some sh => some sh
                            | none => o.shape⟩ :: os⟩ := by
  have hin1 : InferenceContext.getInputType ⟨a, i, ⟨some e, o.shape⟩ :: os⟩ 0 = some t := hin
  simp only [propagateShapeAndTypeFromFirstInput, propagateElemTypeFromInputToOutput, hin, he,
    updateOutputElemType_cons, propagateShapeFromInputToOutput, hin1]
  cases t.shape with
  | none => rfl
  | some sh => rfl

/-- The result of `logicalOpInference` on a context with an output slot 0. -/
theorem logicalOpInference_cons (a : List (String × AttributeValue))
    (i : List (Option TypeProto)) (o : TypeProto) (os : List TypeProto) :
    logicalOpInference ⟨a, i, o :: os⟩
      = .ok ⟨a, i, ⟨some TensorProto.BOOL,
                    match (InferenceContext.getInputType ⟨a, i, o :: os⟩ 0).bind
                        TypeProto.shape with
                    | some sh => some sh
                    | none => o.shape⟩ :: os⟩ := by
  simp only [logicalOpInference, updateOutputElemType_cons]
  have hsame : InferenceContext.getInputType ⟨a, i, ⟨some TensorProto.BOOL, o.shape⟩ :: os⟩ 0
      = InferenceContext.getInputType ⟨a, i, o :: os⟩ 0 := rfl
  cases hin : InferenceContext.getInputType ⟨a, i, o :: os⟩ 0 with
  | none =>
    rw [hin] at hsame
    simp [hasInputShape, hsame]
  | some t =>
    rw [hin] at hsame
    cases hsh : t.shape with
    | none => simp [hasInputShape, hsame, hsh]
    | some sh =>
      simp [hasInputShape, hsame, hsh, propagateShapeFromInputToOutput, updateOutputShape_cons]

/-! ## The registry -/

/-- A lookup in a registry none of whose schemas has the identity finds
nothing. -/
theorem lookup_eq_none (schemas : List OpSchema) (domain name : String) (version : Nat)
    (h : (domain, name, version) ∉ schemas.map OpSchema.identity) :
    SchemaRegistry.lookup ⟨schemas⟩ domain name version = none := by
  simp only [SchemaRegistry.lookup, List.find?_eq_none]
  intro schema hmem hid
  exact h (List.mem_map.mpr ⟨schema, hmem, by simpa using hid⟩)

/-- Schemas of pairwise distinct identities are all registered, in order. -/
theorem registerAll_of_nodup (rest registered : List OpSchema)
    (h : ((registered ++ rest).map OpSchema.identity).Nodup) :
    SchemaRegistry.registerAll ⟨registered⟩ rest = .ok ⟨registered ++ rest⟩ := by
  induction rest generalizing registered with
  | nil => simp [SchemaRegistry.registerAll]
  | cons schema rest ih =>
    have hsplit : registered ++ schema :: rest = (registered ++ [schema]) ++ rest := by simp
    have hfresh : (schema.domain, schema.name, schema.since_version)
        ∉ registered.map OpSchema.identity := by
      intro hmem
      rw [List.map_append, List.nodup_append] at h
      exact h.2.2 hmem (by simp [OpSchema.identity])
    rw [hsplit] at h
    simp only [SchemaRegistry.registerAll, SchemaRegistry.register,
      lookup_eq_none registered _ _ _ hfresh]
    rw [ih (registered ++ [schema]) h, hsplit]

/-- In a registry of pairwise distinct identities the exact lookup of a
registered schema's identity returns that schema. -/
theorem lookup_of_nodup (schemas : List OpSchema)
    (h : (schemas.map OpSchema.identity).Nodup) (schema : OpSchema) (hmem : schema ∈ schemas) :
    SchemaRegistry.lookup ⟨schemas⟩ schema.domain schema.name schema.since_version
      = some schema := by
  induction schemas with
  | nil => simp at hmem
  | cons first rest ih =>
    rw [List.map_cons, List.nodup_cons] at h
    simp only [SchemaRegistry.lookup, List.find?_cons]
    by_cases hid : first.identity = schema.identity
    · have hfirst : schema = first := by
        rcases List.mem_cons.mp hmem with heq | hrest
        · exact heq
        · exact absurd (hid ▸ List.mem_map_of_mem OpSchema.identity hrest) h.1
      subst hfirst
      simp [OpSchema.identity]
    · have hrest : schema ∈ rest := by
        rcases List.mem_cons.mp hmem with heq | hrest
        · exact absurd (heq ▸ rfl) hid
        · exact hrest
      have hne : (first.identity == (schema.domain, schema.name, schema.since_version))
          = false := by
        simpa [OpSchema.identity] using hid
      rw [hne]
      exact ih h.2 hrest

/-! ## What the common part of the fill closures depends on -/

/-- The accessor returns 0 exactly when the attribute is absent or is the
integer 0. -/
theorem getAttribute_eq_ok_zero (c : InferenceContext) (name : String)
    (h : getAttribute c name 0 = .ok 0) :
    c.getAttribute name = none ∨ c.getAttribute name = some (.i 0) := by
  unfold getAttribute at h
  cases hl : c.getAttribute name with
  | none => exact Or.inl rfl
  | some v =>
    rw [hl] at h
    cases v <;> simp at h
    subst h
    exact Or.inr rfl

/-- On a well-kinded integer attribute the accessor returns a value. -/
theorem getAttribute_returns (c : InferenceContext) (name : String) (d : Int)
    (hk : ∀ v, c.getAttribute name = some v → ∃ n, v = .i n) :
    ∃ n, getAttribute c name d = .ok n := by
  unfold getAttribute
  cases hl : c.getAttribute name with
  | none => exact ⟨d, rfl⟩
  | some v =>
    obtain ⟨n, rfl⟩ := hk v hl
    exact ⟨n, rfl⟩

/-- The dynamic-shape path, in terms of the accessor. -/
theorem fillShapeInference_dynamic (c : InferenceContext) (n : Int)
    (hshape : c.getAttribute "shape" = none)
    (hias : getAttribute c "input_as_shape" 0 = .ok n) (hn : n ≠ 0) :
    fillShapeInference c = .ok c := by
  simp [fillShapeInference, hshape, hias, hn]

/-- The common part of the fill closures on two contexts that agree on
the attributes `shape` and `extra_shape`, on what the accessor returns for
`input_as_shape`, on input 0 and on the shape of output 0: both return, with
the same shape in output 0, each keeping the rest of its context. -/
theorem fillShapeInference_congr (a b : List (String × AttributeValue))
    (i j : List (Option TypeProto)) (o p : TypeProto) (os ps : List TypeProto)
    (hs : ∀ v, a.lookup "shape" = some v → ∃ l, v = .ints l)
    (he : ∀ v, a.lookup "extra_shape" = some v → ∃ l, v = .ints l)
    (hi : ∀ v, a.lookup "input_as_shape" = some v → ∃ n, v = .i n)
    (hshape : b.lookup "shape" = a.lookup "shape")
    (hextra : b.lookup "extra_shape" = a.lookup "extra_shape")
    (hias : getAttribute ⟨b, j, p :: ps⟩ "input_as_shape" 0
      = getAttribute ⟨a, i, o :: os⟩ "input_as_shape" 0)
    (hin : InferenceContext.getInputType ⟨b, j, p :: ps⟩ 0
      = InferenceContext.getInputType ⟨a, i, o :: os⟩ 0)
    (hout : p.shape = o.shape) :
    ∃ sh1, fillShapeInference ⟨a, i, o :: os⟩ = .ok ⟨a, i, ⟨o.elem_type, sh1⟩ :: os⟩ ∧
      fillShapeInference ⟨b, j, p :: ps⟩ = .ok ⟨b, j, ⟨p.elem_type, sh1⟩ :: ps⟩ := by
  cases hsa : a.lookup "shape" with
  | some v =>
    obtain ⟨dims, rfl⟩ := hs v hsa
    rw [fillShapeInference_shape_cases a i o os dims hsa,
      fillShapeInference_shape_cases b j p ps dims (hshape.trans hsa), hout]
    exact ⟨_, rfl, rfl⟩
  | none =>
    have hsb : b.lookup "shape" = none := hshape.trans hsa
    obtain ⟨n, hn⟩ := getAttribute_returns ⟨a, i, o :: os⟩ "input_as_shape" 0 hi
    by_cases hz : n = 0
    · subst hz
      have hext : ∃ es, a.lookup "extra_shape" = some (.ints es) ∨
          (a.lookup "extra_shape" = none ∧ es = []) := by
        cases hx : a.lookup "extra_shape" with
        | none => exact ⟨[], Or.inr ⟨rfl, rfl⟩⟩
        | some v =>
          obtain ⟨l, rfl⟩ := he v hx
          exact ⟨l, Or.inl rfl⟩
      obtain ⟨es, hea⟩ := hext
      have heb : b.lookup "extra_shape" = some (.ints es) ∨
          (b.lookup "extra_shape" = none ∧ es = []) := by
        rw [hextra]
        exact hea
      rw [fillShapeInference_extend a i o os es hsa
            (getAttribute_eq_ok_zero ⟨a, i, o :: os⟩ _ hn) hea,
          fillShapeInference_extend b j p ps es hsb
            (getAttribute_eq_ok_zero ⟨b, j, p :: ps⟩ _ (hias.trans hn)) heb, hin]
      cases (InferenceContext.getInputType ⟨a, i, o :: os⟩ 0).bind TypeProto.shape with
      | none => exact ⟨o.shape, rfl, by rw [← hout]⟩
      | some sh =>
        simp only
        cases appendExtraShape sh es with
        | none => exact ⟨o.shape, rfl, by rw [← hout]⟩
        | some sh1 => exact ⟨some sh1, rfl, rfl⟩
    · exact ⟨o.shape, fillShapeInference_dynamic ⟨a, i, o :: os⟩ n hsa hn hz, by
        rw [fillShapeInference_dynamic ⟨b, j, p :: ps⟩ n hsb (hias.trans hn) hz, ← hout]⟩

/-- First line of the `GivenTensorFill` closure: the descriptor left in output
slot 0 does not depend on the attributes. -/
theorem GivenTensorFill_first_line_attributes (i : List (Option TypeProto)) (o : TypeProto)
    (os : List TypeProto) :
    ∃ o1 : TypeProto, o1.shape = o.shape ∧
      ∀ a, propagateElemTypeFromInputToOutput ⟨a, i, o :: os⟩ 0 0 = .ok ⟨a, i, o1 :: os⟩ := by
  cases hin : InferenceContext.getInputType ⟨[], i, o :: os⟩ 0 with
  | none =>
    refine ⟨o, rfl, fun a => ?_⟩
    have h : InferenceContext.getInputType ⟨a, i, o :: os⟩ 0 = none := hin
    simp only [propagateElemTypeFromInputToOutput, h]
  | some t =>
    cases het : t.elem_type with
    | none =>
      refine ⟨o, rfl, fun a => ?_⟩
      have h : InferenceContext.getInputType ⟨a, i, o :: os⟩ 0 = some t := hin
      simp only [propagateElemTypeFromInputToOutput, h, het]
    | some e =>
      refine ⟨⟨some e, o.shape⟩, rfl, fun a => ?_⟩
      have h : InferenceContext.getInputType ⟨a, i, o :: os⟩ 0 = some t := hin
      simp only [propagateElemTypeFromInputToOutput, h, het, updateOutputElemType_cons]

/-- Setting `input_as_shape` in front of the attributes leaves every
other attribute as it was. -/
theorem lookup_withInputAsShape (a : List (String × AttributeValue)) (v : AttributeValue)
    (name : String) (hname : name ≠ "input_as_shape") :
    (("input_as_shape", v) :: a).lookup name = a.lookup name := by
  have hb : (name == "input_as_shape") = false := by simpa using hname
  simp only [List.lookup, hb]

/-- Both fill closures at once, on instances: as `fill_closures`, with the
kinds of the attributes that the common part reads at hand. -/
theorem fill_closures_instance (ctx : InferenceContext) (P : InferenceContext → Prop)
    (hP : (∀ v, ctx.getAttribute "shape" = some v → ∃ l, v = .ints l) →
      (∀ v, ctx.getAttribute "extra_shape" = some v → ∃ l, v = .ints l) →
      (∀ v, ctx.getAttribute "input_as_shape" = some v → ∃ n, v = .i n) →
      ∀ o o1 os, ctx.outputs = o :: os → o1.shape = o.shape →
      ∃ ctx1, fillShapeInference ⟨ctx.attributes, ctx.inputs, o1 :: os⟩ = .ok ctx1 ∧ P ctx1) :
    (Schemas.ConstantFill.isInstance ctx = true →
      ∃ ctx1, Schemas.ConstantFill.tensor_inference_function ctx = .ok ctx1 ∧ P ctx1) ∧
    (Schemas.GivenTensorFill.isInstance ctx = true →
      ∃ ctx1, Schemas.GivenTensorFill.tensor_inference_function ctx = .ok ctx1 ∧ P ctx1) := by
  constructor
  · intro hinst
    obtain ⟨-, hs, he, hi, -⟩ := ConstantFill_isInstance ctx hinst
    exact (fill_closures ctx P (hP hs he hi)).1 hinst
  · intro hinst
    obtain ⟨hs, he, hi, -⟩ := GivenTensorFill_isInstance ctx hinst
    exact (fill_closures ctx P (hP hs he hi)).2 hinst

/-- First line of the `GivenTensorFill` closure: the element type left in
output slot 0 is input 0's when that is known and the former one otherwise. -/
theorem GivenTensorFill_first_line_elem (a : List (String × AttributeValue))
    (i : List (Option TypeProto)) (o : TypeProto) (os : List TypeProto) :
    ∃ o1 : TypeProto, o1.shape = o.shape ∧
      o1.elem_type = (match (InferenceContext.getInputType ⟨a, i, o :: os⟩ 0).bind
                              TypeProto.elem_type with
                      | some e => some e
                      | none => o.elem_type) ∧
      propagateElemTypeFromInputToOutput ⟨a, i, o :: os⟩ 0 0 = .ok ⟨a, i, o1 :: os⟩ := by
  unfold propagateElemTypeFromInputToOutput
  cases InferenceContext.getInputType ⟨a, i, o :: os⟩ 0 with
  | none => exact ⟨o, rfl, rfl, rfl⟩
  | some t =>
    cases het : t.elem_type with
    | none => exact ⟨o, rfl, by simp [Option.bind, het], by simp only [het]⟩
    | some e =>
      exact ⟨⟨some e, o.shape⟩, rfl, by simp [Option.bind, het],
        by simp only [het, updateOutputElemType_cons]⟩

/-! ## What an inference function leaves alone -/

theorem onlyOutputChanged_refl (k : Nat) (ctx : InferenceContext) :
    InferenceContext.onlyOutputChanged k ctx ctx :=
  ⟨rfl, rfl, rfl, fun _ _ => rfl⟩

theorem onlyOutputChanged_trans (k : Nat) (c1 c2 c3 : InferenceContext)
    (h12 : InferenceContext.onlyOutputChanged k c1 c2)
    (h23 : InferenceContext.onlyOutputChanged k c2 c3) :
    InferenceContext.onlyOutputChanged k c1 c3 :=
  ⟨h23.1.trans h12.1, h23.2.1.trans h12.2.1, h23.2.2.1.trans h12.2.2.1,
    fun j hj => (h23.2.2.2 j hj).trans (h12.2.2.2 j hj)⟩

theorem updateOutputElemType_frame (ctx c : InferenceContext) (k : Nat)
    (e : TensorProto.DataType) (h : updateOutputElemType ctx k e = .ok c) :
    InferenceContext.onlyOutputChanged k ctx c := by
  unfold updateOutputElemType at h
  split at h
  · cases h
  · injection h with h
    subst h
    refine ⟨rfl, rfl, by simp, fun j hj => ?_⟩
    simp [InferenceContext.getOutputType, List.getElem?_set_ne (Ne.symm hj)]

theorem updateOutputShape_frame (ctx c : InferenceContext) (k : Nat)
    (sh : TensorShapeProto) (h : updateOutputShape ctx k sh = .ok c) :
    InferenceContext.onlyOutputChanged k ctx c := by
  unfold updateOutputShape at h
  split at h
  · cases h
  · injection h with h
    subst h
    refine ⟨rfl, rfl, by simp, fun j hj => ?_⟩
    simp [InferenceContext.getOutputType, List.getElem?_set_ne (Ne.symm hj)]

theorem propagateElemTypeFromInputToOutput_frame (ctx c : InferenceContext) (n k : Nat)
    (h : propagateElemTypeFromInputToOutput ctx n k = .ok c) :
    InferenceContext.onlyOutputChanged k ctx c := by
  unfold propagateElemTypeFromInputToOutput at h
  split at h
  · injection h with h
    subst h
    exact onlyOutputChanged_refl k ctx
  · split at h
    · injection h with h
      subst h
      exact onlyOutputChanged_refl k ctx
    · exact updateOutputElemType_frame ctx c k _ h

theorem propagateShapeFromInputToOutput_frame (ctx c : InferenceContext) (n k : Nat)
    (h : propagateShapeFromInputToOutput ctx n k = .ok c) :
    InferenceContext.onlyOutputChanged k ctx c := by
  unfold propagateShapeFromInputToOutput at h
  split at h
  · injection h with h
    subst h
    exact onlyOutputChanged_refl k ctx
  · split at h
    · injection h with h
      subst h
      exact onlyOutputChanged_refl k ctx
    · exact updateOutputShape_frame ctx c k _ h

theorem propagateElemTypeFromAttributeToOutput_frame (ctx c : InferenceContext)
    (name : String) (k : Nat) (d : TensorProto.DataType)
    (h : propagateElemTypeFromAttributeToOutput ctx name k d = .ok c) :
    InferenceContext.onlyOutputChanged k ctx c := by
  unfold propagateElemTypeFromAttributeToOutput at h
  split at h
  · exact updateOutputElemType_frame ctx c k _ h
  · exact updateOutputElemType_frame ctx c k _ h
  · cases h

theorem propagateShapeFromAttributeToOutput_frame (ctx c : InferenceContext)
    (name : String) (k : Nat)
    (h : propagateShapeFromAttributeToOutput ctx name k = .ok c) :
    InferenceContext.onlyOutputChanged k ctx c := by
  unfold propagateShapeFromAttributeToOutput at h
  split at h
  · injection h with h
    subst h
    exact onlyOutputChanged_refl k ctx
  · split at h
    · injection h with h
      subst h
      exact onlyOutputChanged_refl k ctx
    · exact updateOutputShape_frame ctx c k _ h
  · cases h

theorem fillShapeInference_frame (ctx c : InferenceContext)
    (h : fillShapeInference ctx = .ok c) : InferenceContext.onlyOutputChanged 0 ctx c := by
  unfold fillShapeInference at h
  split at h
  · exact propagateShapeFromAttributeToOutput_frame ctx c _ 0 h
  · split at h
    · cases h
    · split at h
      · injection h with h
        subst h
        exact onlyOutputChanged_refl 0 ctx
      · split at h
        · cases h
        · split at h
          · split at h
            · cases h
            · split at h
              · injection h with h
                subst h
                exact onlyOutputChanged_refl 0 ctx
              · exact updateOutputShape_frame ctx c 0 _ h
          · injection h with h
            subst h
            exact onlyOutputChanged_refl 0 ctx

theorem ConstantFill_inference_frame (ctx c : InferenceContext)
    (h : ConstantFill_inference ctx = .ok c) : InferenceContext.onlyOutputChanged 0 ctx c := by
  rw [ConstantFill_inference_eq] at h
  cases h1 : propagateElemTypeFromAttributeToOutput ctx "dtype" 0 TensorProto.FLOAT with
  | error e => rw [h1] at h; cases h
  | ok c1 =>
    rw [h1] at h
    exact onlyOutputChanged_trans 0 ctx c1 c
      (propagateElemTypeFromAttributeToOutput_frame ctx c1 _ 0 _ h1)
      (fillShapeInference_frame c1 c h)

theorem GivenTensorFill_inference_frame (ctx c : InferenceContext)
    (h : GivenTensorFill_inference ctx = .ok c) :
    InferenceContext.onlyOutputChanged 0 ctx c := by
  rw [GivenTensorFill_inference_eq] at h
  cases h1 : propagateElemTypeFromInputToOutput ctx 0 0 with
  | error e => rw [h1] at h; cases h
  | ok c1 =>
    rw [h1] at h
    exact onlyOutputChanged_trans 0 ctx c1 c
      (propagateElemTypeFromInputToOutput_frame ctx c1 0 0 h1)
      (fillShapeInference_frame c1 c h)

theorem logicalOpInference_frame (ctx c : InferenceContext)
    (h : logicalOpInference ctx = .ok c) : InferenceContext.onlyOutputChanged 0 ctx c := by
  unfold logicalOpInference at h
  cases h1 : updateOutputElemType ctx 0 TensorProto.BOOL with
  | error e => rw [h1] at h; cases h
  | ok c1 =>
    rw [h1] at h
    simp only at h
    split at h
    · exact onlyOutputChanged_trans 0 ctx c1 c (updateOutputElemType_frame ctx c1 0 _ h1)
        (propagateShapeFromInputToOutput_frame c1 c 0 0 h)
    · injection h with h
      rw [← h]
      exact updateOutputElemType_frame ctx c1 0 _ h1

/-! ## Termination and the guarded read of the input shape -/

/-- On its instances the `ConstantFill` closure returns. -/
theorem ConstantFill_inference_returns (ctx : InferenceContext)
    (hinst : Schemas.ConstantFill.isInstance ctx = true) :
    ∃ c, ConstantFill_inference ctx = .ok c := by
  obtain ⟨c, hc, -⟩ := (fill_closures_instance ctx (fun _ => True)
    (fun hs he hi o o1 os _ _ => by
      obtain ⟨sh1, h⟩ := fillShapeInference_returns ctx.attributes ctx.inputs o1 os hs he hi
      exact ⟨_, h, trivial⟩)).1 hinst
  exact ⟨c, hc⟩

/-- On its instances the `GivenTensorFill` closure returns. -/
theorem GivenTensorFill_inference_returns (ctx : InferenceContext)
    (hinst : Schemas.GivenTensorFill.isInstance ctx = true) :
    ∃ c, GivenTensorFill_inference ctx = .ok c := by
  obtain ⟨c, hc, -⟩ := (fill_closures_instance ctx (fun _ => True)
    (fun hs he hi o o1 os _ _ => by
      obtain ⟨sh1, h⟩ := fillShapeInference_returns ctx.attributes ctx.inputs o1 os hs he hi
      exact ⟨_, h, trivial⟩)).2 hinst
  exact ⟨c, hc⟩

/-- On a context with an output slot 0 `logicalOpInference` returns. -/
theorem logicalOpInference_returns (ctx : InferenceContext) (hout : 0 < ctx.outputs.length) :
    ∃ c, logicalOpInference ctx = .ok c := by
  obtain ⟨a, i, outs⟩ := ctx
  cases outs with
  | nil => simp at hout
  | cons o os => exact ⟨_, logicalOpInference_cons a i o os⟩

/-- Under the guard `hasInputShape` the read of the input shape succeeds. -/
theorem readInputShape_of_hasInputShape (ctx : InferenceContext) (n : Nat)
    (h : hasInputShape ctx n = true) : ∃ sh, readInputShape ctx n = .ok sh := by
  unfold hasInputShape at h
  unfold readInputShape
  cases hin : ctx.getInputType n with
  | none => simp [hin] at h
  | some t =>
    cases hsh : t.shape with
    | none => simp [hin, hsh] at h
    | some sh => exact ⟨sh, by simp only [hsh]⟩

theorem getAttribute_error (ctx : InferenceContext) (name : String) (d : Int)
    (e : InferenceError) (h : getAttribute ctx name d = .error e) :
    e = .attributeKindMismatch name := by
  unfold getAttribute at h
  split at h
  · cases h
  · cases h
  · injection h with h
    exact h.symm

theorem getRepeatedAttribute_error (ctx : InferenceContext) (name : String)
    (e : InferenceError) (h : getRepeatedAttribute ctx name = .error e) :
    e = .attributeKindMismatch name := by
  unfold getRepeatedAttribute at h
  split at h
  · cases h
  · cases h
  · injection h with h
    exact h.symm

theorem updateOutputElemType_error (ctx : InferenceContext) (k : Nat)
    (t : TensorProto.DataType) (e : InferenceError)
    (h : updateOutputElemType ctx k t = .error e) : e = .noOutputSlot k := by
  unfold updateOutputElemType at h
  split at h
  · injection h with h
    exact h.symm
  · cases h

theorem updateOutputShape_error (ctx : InferenceContext) (k : Nat)
    (sh : TensorShapeProto) (e : InferenceError)
    (h : updateOutputShape ctx k sh = .error e) : e = .noOutputSlot k := by
  unfold updateOutputShape at h
  split at h
  · injection h with h
    exact h.symm
  · cases h

/-- No statement of the common part of the fill closures reads the shape of a
missing input. -/
theorem fillShapeInference_no_null_read (ctx : InferenceContext) (n : Nat) :
    fillShapeInference ctx ≠ .error (.nullInputType n) := by
  intro h
  unfold fillShapeInference at h
  split at h
  · unfold propagateShapeFromAttributeToOutput at h
    split at h
    · cases h
    · split at h
      · cases h
      · cases updateOutputShape_error _ _ _ _ h
    · cases h
  · split at h
    · rename_i e he
      injection h with h
      subst h
      cases getAttribute_error _ _ _ _ he
    · split at h
      · cases h
      · split at h
        · rename_i e he
          injection h with h
          subst h
          cases getRepeatedAttribute_error _ _ _ he
        · split at h
          · rename_i hguard
            obtain ⟨sh, hsh⟩ := readInputShape_of_hasInputShape ctx 0 hguard
            rw [hsh] at h
            simp only at h
            split at h
            · cases h
            · cases updateOutputShape_error _ _ _ _ h
          · cases h

/-- The `ConstantFill` closure never reads the shape of a missing input. -/
theorem ConstantFill_inference_no_null_read (ctx : InferenceContext) (n : Nat) :
    ConstantFill_inference ctx ≠ .error (.nullInputType n) := by
  intro h
  rw [ConstantFill_inference_eq] at h
  cases h1 : propagateElemTypeFromAttributeToOutput ctx "dtype" 0 TensorProto.FLOAT with
  | error e =>
    rw [h1] at h
    injection h with h
    subst h
    unfold propagateElemTypeFromAttributeToOutput at h1
    split at h1
    · cases updateOutputElemType_error _ _ _ _ h1
    · cases updateOutputElemType_error _ _ _ _ h1
    · cases h1
  | ok c1 =>
    rw [h1] at h
    exact fillShapeInference_no_null_read c1 n h

/-- The `GivenTensorFill` closure never reads the shape of a missing input. -/
theorem GivenTensorFill_inference_no_null_read (ctx : InferenceContext) (n : Nat) :
    GivenTensorFill_inference ctx ≠ .error (.nullInputType n) := by
  intro h
  rw [GivenTensorFill_inference_eq] at h
  cases h1 : propagateElemTypeFromInputToOutput ctx 0 0 with
  | error e =>
    rw [h1] at h
    injection h with h
    subst h
    unfold propagateElemTypeFromInputToOutput at h1
    split at h1
    · cases h1
    · split at h1
      · cases h1
      · cases updateOutputElemType_error _ _ _ _ h1
  | ok c1 =>
    rw [h1] at h
    exact fillShapeInference_no_null_read c1 n h

/-- The element type that the `ConstantFill` closure leaves in output 0 on
an instance: the one of code `dtype`, FLOAT without that attribute. -/
theorem ConstantFill_inference_dtype (ctx : InferenceContext)
    (hinst : Schemas.ConstantFill.isInstance ctx = true) :
    ∃ c, ConstantFill_inference ctx = .ok c ∧
      (c.getOutputType 0).map TypeProto.elem_type
        = some (some (match ctx.getAttribute "dtype" with
                      | some (.i v) => ⟨v⟩
                      | _ => TensorProto.FLOAT)) := by
  obtain ⟨hd, hs, he, hi, ho⟩ := ConstantFill_isInstance ctx hinst
  obtain ⟨a, i, outs⟩ := ctx
  cases outs with
  | nil => simp at ho
  | cons o os =>
    obtain ⟨o1, -, hel, hstep⟩ := ConstantFill_first_line a i o os hd
    obtain ⟨sh1, htail⟩ := fillShapeInference_returns a i o1 os hs he hi
    rw [ConstantFill_inference_eq, hstep]
    simp only
    rw [htail]
    exact ⟨_, rfl, by simp [InferenceContext.getOutputType, InferenceContext.getAttribute, hel]⟩

/-! ## The setter calls of one invocation -/

theorem traced_propagateElemTypeFromInputToOutput_run (ctx : InferenceContext) (n k : Nat) :
    (Traced.propagateElemTypeFromInputToOutput ctx n k).result
        = propagateElemTypeFromInputToOutput ctx n k ∧
      ((Traced.propagateElemTypeFromInputToOutput ctx n k).writes = [] ∨
        ∃ e, (Traced.propagateElemTypeFromInputToOutput ctx n k).writes
          = [OutputWrite.elem_type k e]) := by
  unfold Traced.propagateElemTypeFromInputToOutput propagateElemTypeFromInputToOutput
  split
  · exact ⟨rfl, Or.inl rfl⟩
  · split
    · exact ⟨rfl, Or.inl rfl⟩
    · exact ⟨rfl, Or.inr ⟨_, rfl⟩⟩

theorem traced_propagateShapeFromInputToOutput_run (ctx : InferenceContext) (n k : Nat) :
    (Traced.propagateShapeFromInputToOutput ctx n k).result
        = propagateShapeFromInputToOutput ctx n k ∧
      ((Traced.propagateShapeFromInputToOutput ctx n k).writes = [] ∨
        ∃ sh, (Traced.propagateShapeFromInputToOutput ctx n k).writes
          = [OutputWrite.shape k sh]) := by
  unfold Traced.propagateShapeFromInputToOutput propagateShapeFromInputToOutput
  split
  · exact ⟨rfl, Or.inl rfl⟩
  · split
    · exact ⟨rfl, Or.inl rfl⟩
    · exact ⟨rfl, Or.inr ⟨_, rfl⟩⟩

theorem traced_propagateElemTypeFromAttributeToOutput_run (ctx : InferenceContext)
    (name : String) (k : Nat) (d : TensorProto.DataType) :
    (Traced.propagateElemTypeFromAttributeToOutput ctx name k d).result
        = propagateElemTypeFromAttributeToOutput ctx name k d ∧
      ((Traced.propagateElemTypeFromAttributeToOutput ctx name k d).writes = [] ∨
        ∃ e, (Traced.propagateElemTypeFromAttributeToOutput ctx name k d).writes
          = [OutputWrite.elem_type k e]) := by
  unfold Traced.propagateElemTypeFromAttributeToOutput propagateElemTypeFromAttributeToOutput
  split
  · exact ⟨rfl, Or.inr ⟨_, rfl⟩⟩
  · exact ⟨rfl, Or.inr ⟨_, rfl⟩⟩
  · exact ⟨rfl, Or.inl rfl⟩

theorem traced_propagateShapeFromAttributeToOutput_run (ctx : InferenceContext)
    (name : String) (k : Nat) :
    (Traced.propagateShapeFromAttributeToOutput ctx name k).result
        = propagateShapeFromAttributeToOutput ctx name k ∧
      ((Traced.propagateShapeFromAttributeToOutput ctx name k).writes = [] ∨
        ∃ sh, (Traced.propagateShapeFromAttributeToOutput ctx name k).writes
          = [OutputWrite.shape k sh]) := by
  unfold Traced.propagateShapeFromAttributeToOutput propagateShapeFromAttributeToOutput
  split
  · exact ⟨rfl, Or.inl rfl⟩
  · split
    · exact ⟨rfl, Or.inl rfl⟩
    · exact ⟨rfl, Or.inr ⟨_, rfl⟩⟩
  · exact ⟨rfl, Or.inl rfl⟩

theorem traced_fillShapeInference_run (ctx : InferenceContext) :
    (Traced.fillShapeInference ctx).result = fillShapeInference ctx ∧
      ((Traced.fillShapeInference ctx).writes = [] ∨
        ∃ sh, (Traced.fillShapeInference ctx).writes = [OutputWrite.shape 0 sh]) := by
  unfold Traced.fillShapeInference fillShapeInference
  split
  · exact traced_propagateShapeFromAttributeToOutput_run ctx "shape" 0
  · split
    · exact ⟨rfl, Or.inl rfl⟩
    · split
      · exact ⟨rfl, Or.inl rfl⟩
      · split
        · exact ⟨rfl, Or.inl rfl⟩
        · split
          · split
            · exact ⟨rfl, Or.inl rfl⟩
            · split
              · exact ⟨rfl, Or.inl rfl⟩
              · exact ⟨rfl, Or.inr ⟨_, rfl⟩⟩
          · exact ⟨rfl, Or.inl rfl⟩

/-- A run that sets an element type at most once, followed by statements that
install a shape at most once: the result is that of the plain sequence, and
each of the two is written at most once. -/
theorem andThen_counts (run : TracedRun) (next : InferenceContext → TracedRun)
    (plain : Except InferenceError InferenceContext) (plainNext : InferenceFunction)
    (hrun : run.result = plain ∧
      (run.writes = [] ∨ ∃ e, run.writes = [OutputWrite.elem_type 0 e]))
    (hnext : ∀ c, (next c).result = plainNext c ∧
      ((next c).writes = [] ∨ ∃ sh, (next c).writes = [OutputWrite.shape 0 sh])) :
    (run.andThen next).result = plain.bind plainNext ∧
      (run.andThen next).writes.countP (OutputWrite.setsElemType 0) ≤ 1 ∧
      (run.andThen next).writes.countP (OutputWrite.setsShape 0) ≤ 1 := by
  obtain ⟨hres, hw⟩ := hrun
  subst hres
  unfold TracedRun.andThen
  cases hr : run.result with
  | error e =>
    refine ⟨rfl, ?_, ?_⟩ <;>
      rcases hw with h | ⟨e1, h⟩ <;>
      simp [h, OutputWrite.setsElemType, OutputWrite.setsShape]
  | ok c =>
    obtain ⟨hn, hnw⟩ := hnext c
    refine ⟨hn, ?_, ?_⟩ <;>
      rcases hw with h | ⟨e1, h⟩ <;> rcases hnw with h2 | ⟨sh, h2⟩ <;>
      simp [h, h2, OutputWrite.setsElemType, OutputWrite.setsShape]

theorem logicalOpInference_bind (ctx : InferenceContext) :
    (updateOutputElemType ctx 0 TensorProto.BOOL).bind
        (fun c => if hasInputShape c 0 then propagateShapeFromInputToOutput c 0 0 else .ok c)
      = logicalOpInference ctx := by
  cases h : updateOutputElemType ctx 0 TensorProto.BOOL <;>
    simp [logicalOpInference, h, Except.bind]

theorem ConstantFill_inference_bind (ctx : InferenceContext) :
    (propagateElemTypeFromAttributeToOutput ctx "dtype" 0 TensorProto.FLOAT).bind
        fillShapeInference
      = ConstantFill_inference ctx := by
  rw [ConstantFill_inference_eq]
  cases propagateElemTypeFromAttributeToOutput ctx "dtype" 0 TensorProto.FLOAT <;> rfl

theorem GivenTensorFill_inference_bind (ctx : InferenceContext) :
    (propagateElemTypeFromInputToOutput ctx 0 0).bind fillShapeInference
      = GivenTensorFill_inference ctx := by
  rw [GivenTensorFill_inference_eq]
  cases propagateElemTypeFromInputToOutput ctx 0 0 <;> rfl

/-! ## Non-negative dimensions -/

/-- When the loop over `extra_shape` runs to its end, every entry was
non-negative and has been appended. -/
theorem appendExtraShape_some (es : List Int) (sh sh1 : TensorShapeProto)
    (h : appendExtraShape sh es = some sh1) :
    sh1.dim = sh.dim ++ es.map Dimension.dim_value ∧ ∀ e ∈ es, 0 ≤ e := by
  induction es generalizing sh with
  | nil =>
    simp only [appendExtraShape, Option.some.injEq] at h
    subst h
    simp
  | cons e es ih =>
    by_cases he : e < 0
    · simp [appendExtraShape, he] at h
    · simp only [appendExtraShape, he, if_false] at h
      obtain ⟨hdim, hnn⟩ := ih _ h
      refine ⟨by simp [hdim, TensorShapeProto.add_dim_value], ?_⟩
      intro x hx
      rcases List.mem_cons.mp hx with rfl | hx
      · exact not_lt.mp he
      · exact hnn x hx

/-! ## Running an inference function again -/

/-- Installing in output slot `k` the shape that a first call installed there
changes nothing. -/
theorem updateOutputShape_again (ctx c : InferenceContext) (k : Nat) (sh : TensorShapeProto)
    (h : updateOutputShape ctx k sh = .ok c) : updateOutputShape c k sh = .ok c := by
  unfold updateOutputShape at h
  cases hout : ctx.getOutputType k with
  | none => simp [hout] at h
  | some t =>
    simp only [hout] at h
    injection h with h
    subst h
    have hk : k < ctx.outputs.length := by
      simp only [InferenceContext.getOutputType] at hout
      exact (List.get?_eq_some.mp hout).1
    simp [updateOutputShape, InferenceContext.getOutputType, List.getElem?_set_self hk]

/-- Setting in output slot `k` the element type that a first call set there
changes nothing. -/
theorem updateOutputElemType_again (ctx c : InferenceContext) (k : Nat)
    (e : TensorProto.DataType)
    (h : updateOutputElemType ctx k e = .ok c) : updateOutputElemType c k e = .ok c := by
  unfold updateOutputElemType at h
  cases hout : ctx.getOutputType k with
  | none => simp [hout] at h
  | some t =>
    simp only [hout] at h
    injection h with h
    subst h
    have hk : k < ctx.outputs.length := by
      simp only [InferenceContext.getOutputType] at hout
      exact (List.get?_eq_some.mp hout).1
    simp [updateOutputElemType, InferenceContext.getOutputType, List.getElem?_set_self hk]

/-- What the common part of the fill closures does is decided by
the attributes and the inputs alone: whatever the output slots hold, it returns
the context as it is, or installs one and the same shape in output 0, or ends
in one and the same report. -/
theorem fillShapeInference_uniform (a : List (String × AttributeValue))
    (i : List (Option TypeProto)) :
    (∀ outs, fillShapeInference ⟨a, i, outs⟩ = .ok ⟨a, i, outs⟩) ∨
    (∃ sh, ∀ outs, fillShapeInference ⟨a, i, outs⟩ = updateOutputShape ⟨a, i, outs⟩ 0 sh) ∨
    (∃ e, ∀ outs, fillShapeInference ⟨a, i, outs⟩ = .error e) := by
  cases hs : a.lookup "shape" with
  | some v =>
    cases v with
    | ints l =>
      cases hsh : shapeOfInts l with
      | none =>
        exact Or.inl (fun outs => by
          simp [fillShapeInference, InferenceContext.getAttribute, hs,
            propagateShapeFromAttributeToOutput, hsh])
      | some sh =>
        exact Or.inr (Or.inl ⟨sh, fun outs => by
          simp [fillShapeInference, InferenceContext.getAttribute, hs,
            propagateShapeFromAttributeToOutput, hsh]⟩)
    | _ =>
      exact Or.inr (Or.inr ⟨.attributeKindMismatch "shape", fun outs => by
        simp [fillShapeInference, InferenceContext.getAttribute, hs,
          propagateShapeFromAttributeToOutput]⟩)
  | none =>
    cases hias : getAttribute ⟨a, i, []⟩ "input_as_shape" 0 with
    | error e =>
      exact Or.inr (Or.inr ⟨e, fun outs => by
        have h : getAttribute ⟨a, i, outs⟩ "input_as_shape" 0 = .error e := hias
        simp [fillShapeInference, InferenceContext.getAttribute, hs, h]⟩)
    | ok n =>
      by_cases hn : n = 0
      · subst hn
        cases hex : getRepeatedAttribute ⟨a, i, []⟩ "extra_shape" with
        | error e =>
          exact Or.inr (Or.inr ⟨e, fun outs => by
            have h : getAttribute ⟨a, i, outs⟩ "input_as_shape" 0 = .ok 0 := hias
            have h2 : getRepeatedAttribute ⟨a, i, outs⟩ "extra_shape" = .error e := hex
            simp [fillShapeInference, InferenceContext.getAttribute, hs, h, h2]⟩)
        | ok es =>
          cases hg : hasInputShape ⟨a, i, []⟩ 0 with
          | false =>
            exact Or.inl (fun outs => by
              have h : getAttribute ⟨a, i, outs⟩ "input_as_shape" 0 = .ok 0 := hias
              have h2 : getRepeatedAttribute ⟨a, i, outs⟩ "extra_shape" = .ok es := hex
              have h3 : hasInputShape ⟨a, i, outs⟩ 0 = false := hg
              simp [fillShapeInference, InferenceContext.getAttribute, hs, h, h2, h3])
          | true =>
            obtain ⟨sh, hsh⟩ := readInputShape_of_hasInputShape ⟨a, i, []⟩ 0 hg
            cases happ : appendExtraShape sh es with
            | none =>
              exact Or.inl (fun outs => by
                have h : getAttribute ⟨a, i, outs⟩ "input_as_shape" 0 = .ok 0 := hias
                have h2 : getRepeatedAttribute ⟨a, i, outs⟩ "extra_shape" = .ok es := hex
                have h3 : hasInputShape ⟨a, i, outs⟩ 0 = true := hg
                have h4 : readInputShape ⟨a, i, outs⟩ 0 = .ok sh := hsh
                simp [fillShapeInference, InferenceContext.getAttribute, hs, h, h2, h3, h4,
                  happ])
            | some sh1 =>
              exact Or.inr (Or.inl ⟨sh1, fun outs => by
                have h : getAttribute ⟨a, i, outs⟩ "input_as_shape" 0 = .ok 0 := hias
                have h2 : getRepeatedAttribute ⟨a, i, outs⟩ "extra_shape" = .ok es := hex
                have h3 : hasInputShape ⟨a, i, outs⟩ 0 = true := hg
                have h4 : readInputShape ⟨a, i, outs⟩ 0 = .ok sh := hsh
                simp [fillShapeInference, InferenceContext.getAttribute, hs, h, h2, h3, h4,
                  happ]⟩)
      · exact Or.inl (fun outs => by
          have h : getAttribute ⟨a, i, outs⟩ "input_as_shape" 0 = .ok n := hias
          simp [fillShapeInference, InferenceContext.getAttribute, hs, h, hn])

/-- The first line of the `ConstantFill` closure, whatever the output slots
hold: a call of the element-type setter on output 0, or a report. -/
theorem ConstantFill_first_line_uniform (a : List (String × AttributeValue))
    (i : List (Option TypeProto)) :
    (∃ e, ∀ outs, propagateElemTypeFromAttributeToOutput ⟨a, i, outs⟩ "dtype" 0
        TensorProto.FLOAT = updateOutputElemType ⟨a, i, outs⟩ 0 e) ∨
    (∃ err, ∀ outs, propagateElemTypeFromAttributeToOutput ⟨a, i, outs⟩ "dtype" 0
        TensorProto.FLOAT = .error err) := by
  cases hd : a.lookup "dtype" with
  | none =>
    exact Or.inl ⟨TensorProto.FLOAT, fun outs => by
      simp [propagateElemTypeFromAttributeToOutput, InferenceContext.getAttribute, hd]⟩
  | some v =>
    cases v with
    | i n =>
      exact Or.inl ⟨⟨n⟩, fun outs => by
        simp [propagateElemTypeFromAttributeToOutput, InferenceContext.getAttribute, hd]⟩
    | _ =>
      exact Or.inr ⟨.attributeKindMismatch "dtype", fun outs => by
        simp [propagateElemTypeFromAttributeToOutput, InferenceContext.getAttribute, hd]⟩

/-- The first line of the `GivenTensorFill` closure, whatever the output slots
hold: nothing, or a call of the element-type setter on output 0. -/
theorem GivenTensorFill_first_line_uniform (a : List (String × AttributeValue))
    (i : List (Option TypeProto)) :
    (∀ outs, propagateElemTypeFromInputToOutput ⟨a, i, outs⟩ 0 0 = .ok ⟨a, i, outs⟩) ∨
    (∃ e, ∀ outs, propagateElemTypeFromInputToOutput ⟨a, i, outs⟩ 0 0
        = updateOutputElemType ⟨a, i, outs⟩ 0 e) := by
  cases hin : InferenceContext.getInputType ⟨a, i, []⟩ 0 with
  | none =>
    exact Or.inl (fun outs => by
      have h : InferenceContext.getInputType ⟨a, i, outs⟩ 0 = none := hin
      simp only [propagateElemTypeFromInputToOutput, h])
  | some t =>
    cases het : t.elem_type with
    | none =>
      exact Or.inl (fun outs => by
        have h : InferenceContext.getInputType ⟨a, i, outs⟩ 0 = some t := hin
        simp only [propagateElemTypeFromInputToOutput, h, het])
    | some e =>
      exact Or.inr ⟨e, fun outs => by
        have h : InferenceContext.getInputType ⟨a, i, outs⟩ 0 = some t := hin
        simp only [propagateElemTypeFromInputToOutput, h, het]⟩

/-- The common part of the fill closures run again on the context it left
leaves that context. -/
theorem fillShapeInference_again (ctx c : InferenceContext)
    (h : fillShapeInference ctx = .ok c) : fillShapeInference c = .ok c := by
  obtain ⟨ha, hi, -, -⟩ := fillShapeInference_frame ctx c h
  obtain ⟨a, i, outs⟩ := ctx
  obtain ⟨a', i', outs'⟩ := c
  simp only at ha hi
  subst ha
  subst hi
  rcases fillShapeInference_uniform a' i' with hu | ⟨sh, hu⟩ | ⟨e, hu⟩
  · exact hu outs'
  · rw [hu outs] at h
    rw [hu outs']
    exact updateOutputShape_again _ _ 0 sh h
  · rw [hu outs] at h
    cases h

/-- A first line that is a call of the element-type setter on output 0, or
nothing, followed by the common part of the fill closures: run again on the
context it left, the sequence leaves that context. -/
theorem fill_sequence_again (first : InferenceFunction)
    (hfirst : ∀ a i, (∀ outs, first ⟨a, i, outs⟩ = .ok ⟨a, i, outs⟩) ∨
      (∃ e, ∀ outs, first ⟨a, i, outs⟩ = updateOutputElemType ⟨a, i, outs⟩ 0 e) ∨
      (∃ err, ∀ outs, first ⟨a, i, outs⟩ = .error err))
    (ctx c : InferenceContext)
    (h : (first ctx).bind fillShapeInference = .ok c) :
    (first c).bind fillShapeInference = .ok c := by
  cases h1 : first ctx with
  | error err => simp [h1, Except.bind] at h
  | ok c1 =>
    have htail : fillShapeInference c1 = .ok c := by simpa [h1, Except.bind] using h
    have hagain := fillShapeInference_again c1 c htail
    obtain ⟨ha, hi, hlen, hother⟩ := fillShapeInference_frame c1 c htail
    obtain ⟨a, i, outs⟩ := ctx
    obtain ⟨a1, i1, outs1⟩ := c1
    obtain ⟨a2, i2, outs2⟩ := c
    simp only at ha hi
    subst ha
    subst hi
    rcases hfirst a i with hf | ⟨e, hf⟩ | ⟨err, hf⟩
    · have ha1 : a2 = a ∧ i2 = i := by
        have := hf outs
        rw [h1] at this
        injection this with this
        injection this with h3 h4 h5
        exact ⟨h3, h4⟩
      obtain ⟨rfl, rfl⟩ := ha1
      rw [hf outs2]
      simpa [Except.bind] using hagain
    · have h1' := hf outs
      rw [h1] at h1'
      have hfr := updateOutputElemType_frame _ _ 0 e h1'.symm
      have ha1 : a2 = a ∧ i2 = i := ⟨hfr.1, hfr.2.1⟩
      obtain ⟨rfl, rfl⟩ := ha1
      rw [hf outs2]
      cases outs with
      | nil => simp [updateOutputElemType, InferenceContext.getOutputType] at h1'
      | cons o os =>
        rw [updateOutputElemType_cons] at h1'
        injection h1' with h1'
        injection h1' with _ _ houts
        subst houts
        rcases fillShapeInference_uniform a2 i2 with hu | ⟨sh, hu⟩ | ⟨e2, hu⟩
        · rw [hu _] at htail
          injection htail with htail
          injection htail with _ _ houts2
          subst houts2
          simpa [Except.bind, updateOutputElemType_cons] using hagain
        · rw [hu _, updateOutputShape_cons] at htail
          injection htail with htail
          injection htail with _ _ houts2
          subst houts2
          simpa [Except.bind, updateOutputElemType_cons] using hagain
        · rw [hu _] at htail
          cases htail
    · rw [hf outs] at h1
      cases h1

/-- `logicalOpInference` run again on the context it left leaves that
context. -/
theorem logicalOpInference_again (ctx c : InferenceContext)
    (h : logicalOpInference ctx = .ok c) : logicalOpInference c = .ok c := by
  obtain ⟨a, i, outs⟩ := ctx
  cases outs with
  | nil =>
    simp [logicalOpInference, updateOutputElemType, InferenceContext.getOutputType] at h
  | cons o os =>
    rw [logicalOpInference_cons] at h
    injection h with h
    subst h
    rw [logicalOpInference_cons]
    have hsame : InferenceContext.getInputType
        ⟨a, i, (⟨some TensorProto.BOOL,
          match (InferenceContext.getInputType ⟨a, i, o :: os⟩ 0).bind TypeProto.shape with
          | some sh => some sh
          | none => o.shape⟩ : TypeProto) :: os⟩ 0
        = InferenceContext.getInputType ⟨a, i, o :: os⟩ 0 := rfl
    rw [hsame]
    cases (InferenceContext.getInputType ⟨a, i, o :: os⟩ 0).bind TypeProto.shape <;> rfl

/-! ## The fill operators -/

/-- C1, as stated, fails: on `negativeShapeCtx`, an instance of both operators
that carries `shape = [5, -1]`, inference returns with an output 0 whose shape
is not the attribute's sequence `[5, -1]`. -/
theorem fill_shape_attribute_negative_counterexample :
    negativeShapeCtx.getAttribute "shape" = some (.ints [5, -1]) ∧
    Schemas.ConstantFill.isInstance negativeShapeCtx = true ∧
    Schemas.GivenTensorFill.isInstance negativeShapeCtx = true ∧
    (∃ c, Schemas.ConstantFill.tensor_inference_function negativeShapeCtx = .ok c ∧
      (c.getOutputType 0).map TypeProto.shape
        ≠ some (some ⟨[Dimension.dim_value 5, Dimension.dim_value (-1)]⟩)) ∧
    (∃ c, Schemas.GivenTensorFill.tensor_inference_function negativeShapeCtx = .ok c ∧
      (c.getOutputType 0).map TypeProto.shape
        ≠ some (some ⟨[Dimension.dim_value 5, Dimension.dim_value (-1)]⟩)) :=
  ⟨by decide, by decide, by decide, ⟨_, rfl, by decide⟩, ⟨_, rfl, by decide⟩⟩

/-- C1, amended: when the instance carries a `shape` attribute whose entries
are all non-negative, inference of `ConstantFill` and of `GivenTensorFill`
returns with output 0's shape equal to the attribute's integers, one concrete
dimension per entry in the same order, whatever the inputs and the
other attributes of the instance are. -/
theorem fill_shape_attribute_gives_output_shape (ctx : InferenceContext) (dims : List Int)
    (hshape : ctx.getAttribute "shape" = some (.ints dims))
    (hnonneg : ∀ e ∈ dims, 0 ≤ e) :
    (Schemas.ConstantFill.isInstance ctx = true →
      ∃ ctx1, Schemas.ConstantFill.tensor_inference_function ctx = .ok ctx1 ∧
        (ctx1.getOutputType 0).map TypeProto.shape
          = some (some ⟨dims.map Dimension.dim_value⟩)) ∧
    (Schemas.GivenTensorFill.isInstance ctx = true →
      ∃ ctx1, Schemas.GivenTensorFill.tensor_inference_function ctx = .ok ctx1 ∧
        (ctx1.getOutputType 0).map TypeProto.shape
          = some (some ⟨dims.map Dimension.dim_value⟩)) := by
  apply fill_closures
  intro o o1 os _ _
  rw [fillShapeInference_shape ctx.attributes ctx.inputs o1 os dims hshape hnonneg]
  exact ⟨_, rfl, rfl⟩

/-- Witness of the amended C1 on `shapeAttrCtx`: with `shape = [4, 5]` the
output shape is `[4, 5]`, although the input has shape `[2, 3]`, `extra_shape`
is `[7]` and `input_as_shape` is 1. -/
theorem fill_shape_attribute_gives_output_shape_witness :
    shapeAttrCtx.getAttribute "shape" = some (.ints [4, 5]) ∧
    Schemas.ConstantFill.isInstance shapeAttrCtx = true ∧
    ∃ ctx1, Schemas.ConstantFill.tensor_inference_function shapeAttrCtx = .ok ctx1 ∧
      (ctx1.getOutputType 0).map TypeProto.shape
        = some (some ⟨[Dimension.dim_value 4, Dimension.dim_value 5]⟩) :=
  ⟨by decide, by decide,
   (fill_shape_attribute_gives_output_shape shapeAttrCtx [4, 5] (by decide)
      (by decide)).1 (by decide)⟩

/-- C2: without a `shape` attribute, with `input_as_shape` absent or 0, over an
input 0 of known rank and an `extra_shape` (absent counting as empty) whose
entries are all non-negative, inference of `ConstantFill` and of
`GivenTensorFill` returns with output 0's shape equal to the input's
dimensions, verbatim, followed by one concrete dimension per `extra_shape`
entry, in order. -/
theorem fill_extra_shape_appended (ctx : InferenceContext) (t : TypeProto)
    (sh : TensorShapeProto) (es : List Int)
    (hshape : ctx.getAttribute "shape" = none)
    (hias : ctx.getAttribute "input_as_shape" = none ∨
      ctx.getAttribute "input_as_shape" = some (.i 0))
    (hin : ctx.getInputType 0 = some t) (hsh : t.shape = some sh)
    (hextra : ctx.getAttribute "extra_shape" = some (.ints es) ∨
      (ctx.getAttribute "extra_shape" = none ∧ es = []))
    (hnonneg : ∀ e ∈ es, 0 ≤ e) :
    (Schemas.ConstantFill.isInstance ctx = true →
      ∃ ctx1, Schemas.ConstantFill.tensor_inference_function ctx = .ok ctx1 ∧
        (ctx1.getOutputType 0).map TypeProto.shape
          = some (some ⟨sh.dim ++ es.map Dimension.dim_value⟩)) ∧
    (Schemas.GivenTensorFill.isInstance ctx = true →
      ∃ ctx1, Schemas.GivenTensorFill.tensor_inference_function ctx = .ok ctx1 ∧
        (ctx1.getOutputType 0).map TypeProto.shape
          = some (some ⟨sh.dim ++ es.map Dimension.dim_value⟩)) := by
  apply fill_closures
  intro o o1 os _ _
  rw [fillShapeInference_extend ctx.attributes ctx.inputs o1 os es hshape hias hextra]
  have hin1 : InferenceContext.getInputType ⟨ctx.attributes, ctx.inputs, o1 :: os⟩ 0 = some t :=
    hin
  simp only [hin1, Option.bind, hsh, appendExtraShape_nonneg es sh hnonneg]
  exact ⟨_, rfl, rfl⟩

/-- Witness of C2 on `extendCtx`: input shape `[2, 3]` with `extra_shape = [5]`
gives `[2, 3, 5]`. -/
theorem fill_extra_shape_appended_witness :
    Schemas.GivenTensorFill.isInstance extendCtx = true ∧
    ∃ ctx1, Schemas.GivenTensorFill.tensor_inference_function extendCtx = .ok ctx1 ∧
      (ctx1.getOutputType 0).map TypeProto.shape
        = some (some ⟨[Dimension.dim_value 2, Dimension.dim_value 3, Dimension.dim_value 5]⟩) :=
  ⟨by decide,
   (fill_extra_shape_appended extendCtx
      ⟨some TensorProto.FLOAT, some ⟨[.dim_value 2, .dim_value 3]⟩⟩
      ⟨[.dim_value 2, .dim_value 3]⟩ [5] (by decide) (Or.inl (by decide)) (by decide) rfl
      (Or.inl (by decide)) (by decide)).2 (by decide)⟩

/-- C3: without a `shape` attribute and with `input_as_shape` absent or 0, an
`extra_shape` with a negative entry at any position makes inference of
`ConstantFill` and of `GivenTensorFill` return with output 0's shape exactly as
it was before the call. -/
theorem fill_negative_extra_shape_keeps_output_shape (ctx : InferenceContext)
    (es : List Int)
    (hshape : ctx.getAttribute "shape" = none)
    (hias : ctx.getAttribute "input_as_shape" = none ∨
      ctx.getAttribute "input_as_shape" = some (.i 0))
    (hextra : ctx.getAttribute "extra_shape" = some (.ints es))
    (hneg : ∃ e ∈ es, e < 0) :
    (Schemas.ConstantFill.isInstance ctx = true →
      ∃ ctx1, Schemas.ConstantFill.tensor_inference_function ctx = .ok ctx1 ∧
        (ctx1.getOutputType 0).map TypeProto.shape
          = (ctx.getOutputType 0).map TypeProto.shape) ∧
    (Schemas.GivenTensorFill.isInstance ctx = true →
      ∃ ctx1, Schemas.GivenTensorFill.tensor_inference_function ctx = .ok ctx1 ∧
        (ctx1.getOutputType 0).map TypeProto.shape
          = (ctx.getOutputType 0).map TypeProto.shape) := by
  apply fill_closures
  intro o o1 os hout ho1
  rw [fillShapeInference_extend ctx.attributes ctx.inputs o1 os es hshape hias (Or.inl hextra)]
  have hres : (InferenceContext.getOutputType ⟨ctx.attributes, ctx.inputs, o1 :: os⟩ 0).map
      TypeProto.shape = (ctx.getOutputType 0).map TypeProto.shape := by
    simp [InferenceContext.getOutputType, hout, ho1]
  cases (InferenceContext.getInputType ⟨ctx.attributes, ctx.inputs, o1 :: os⟩ 0).bind
      TypeProto.shape with
  | none => exact ⟨_, rfl, hres⟩
  | some sh =>
    simp only [appendExtraShape_negative es sh hneg]
    exact ⟨_, rfl, hres⟩

/-- Witness of C3 on `negativeExtraCtx`: with `extra_shape = [5, -1]` the
unknown-rank output stays unknown-rank. -/
theorem fill_negative_extra_shape_keeps_output_shape_witness :
    Schemas.ConstantFill.isInstance negativeExtraCtx = true ∧
    ∃ ctx1, Schemas.ConstantFill.tensor_inference_function negativeExtraCtx = .ok ctx1 ∧
      (ctx1.getOutputType 0).map TypeProto.shape
        = (negativeExtraCtx.getOutputType 0).map TypeProto.shape :=
  ⟨by decide,
   (fill_negative_extra_shape_keeps_output_shape negativeExtraCtx [5, -1] (by decide)
      (Or.inl (by decide)) (by decide) ⟨-1, by decide, by decide⟩).1 (by decide)⟩

/-- C4: without a `shape` attribute and with a non-zero `input_as_shape`,
inference of `ConstantFill` and of `GivenTensorFill` returns with output 0's
shape exactly as it was before the call, for every input and every
`extra_shape`. -/
theorem fill_input_as_shape_keeps_output_shape (ctx : InferenceContext) (v : Int)
    (hshape : ctx.getAttribute "shape" = none)
    (hias : ctx.getAttribute "input_as_shape" = some (.i v)) (hv : v ≠ 0) :
    (Schemas.ConstantFill.isInstance ctx = true →
      ∃ ctx1, Schemas.ConstantFill.tensor_inference_function ctx = .ok ctx1 ∧
        (ctx1.getOutputType 0).map TypeProto.shape
          = (ctx.getOutputType 0).map TypeProto.shape) ∧
    (Schemas.GivenTensorFill.isInstance ctx = true →
      ∃ ctx1, Schemas.GivenTensorFill.tensor_inference_function ctx = .ok ctx1 ∧
        (ctx1.getOutputType 0).map TypeProto.shape
          = (ctx.getOutputType 0).map TypeProto.shape) := by
  apply fill_closures
  intro o o1 os hout ho1
  rw [fillShapeInference_input_as_shape ⟨ctx.attributes, ctx.inputs, o1 :: os⟩ v hshape hias hv]
  exact ⟨_, rfl, by simp [InferenceContext.getOutputType, hout, ho1]⟩

/-- Witness of C4 on `dynamicShapeCtx`: with `input_as_shape = 1` the
unknown-rank output stays unknown-rank although the input has shape `[2, 3]`
and `extra_shape = [5]`. -/
theorem fill_input_as_shape_keeps_output_shape_witness :
    Schemas.ConstantFill.isInstance dynamicShapeCtx = true ∧
    ∃ ctx1, Schemas.ConstantFill.tensor_inference_function dynamicShapeCtx = .ok ctx1 ∧
      (ctx1.getOutputType 0).map TypeProto.shape
        = (dynamicShapeCtx.getOutputType 0).map TypeProto.shape :=
  ⟨by decide,
   (fill_input_as_shape_keeps_output_shape dynamicShapeCtx 1 (by decide) (by decide)
      (by decide)).1 (by decide)⟩

/-- C5: on every `ConstantFill` instance inference returns, and output 0's
element type is then the type whose enum code is the value of `dtype` when
the instance carries that attribute, and FLOAT when it does not, on every path of
the closure and whatever the input is. -/
theorem ConstantFill_output_elem_type (ctx : InferenceContext)
    (hinst : Schemas.ConstantFill.isInstance ctx = true) :
    ∃ ctx1, Schemas.ConstantFill.tensor_inference_function ctx = .ok ctx1 ∧
      (ctx1.getOutputType 0).map TypeProto.elem_type
        = some (some (match ctx.getAttribute "dtype" with
                      | some (.i v) => ⟨v⟩
                      | _ => TensorProto.FLOAT)) := by
  obtain ⟨hd, hs, he, hi, ho⟩ := ConstantFill_isInstance ctx hinst
  obtain ⟨a, i, outs⟩ := ctx
  cases outs with
  | nil => simp at ho
  | cons o os =>
    change ∃ ctx1, ConstantFill_inference _ = .ok ctx1 ∧ _
    obtain ⟨o1, -, hel, hstep⟩ := ConstantFill_first_line a i o os hd
    obtain ⟨sh1, htail⟩ := fillShapeInference_returns a i o1 os hs he hi
    rw [ConstantFill_inference_eq, hstep]
    simp only
    rw [htail]
    exact ⟨_, rfl, by simp [InferenceContext.getOutputType, InferenceContext.getAttribute, hel]⟩

/-- Witness of C5 on `dtypeCtx`: `dtype = 7` over a float input gives the
element type of code 7. -/
theorem ConstantFill_output_elem_type_witness :
    Schemas.ConstantFill.isInstance dtypeCtx = true ∧
    ∃ ctx1, Schemas.ConstantFill.tensor_inference_function dtypeCtx = .ok ctx1 ∧
      (ctx1.getOutputType 0).map TypeProto.elem_type
        = some (some (match dtypeCtx.getAttribute "dtype" with
                      | some (.i v) => ⟨v⟩
                      | _ => TensorProto.FLOAT)) :=
  ⟨by decide, ConstantFill_output_elem_type dtypeCtx (by decide)⟩

/-! ## Identity propagation -/

/-- C6: for each of Affine, ThresholdedRelu, ScaledTanh, ParametricSoftplus,
Scale, ImageScaler and MeanVarianceNormalization, over an input 0 of known
element type, inference returns with output 0 of that element type; output 0's
shape is input 0's shape when that has known rank and is left as it was when
input 0 has unknown rank; and the attributes of the instance play no part: with
any other attributes the same outputs result. -/
theorem identity_propagation (schema : OpSchema)
    (hschema : schema ∈ [Schemas.Affine, Schemas.ThresholdedRelu, Schemas.ScaledTanh,
      Schemas.ParametricSoftplus, Schemas.Scale, Schemas.ImageScaler,
      Schemas.MeanVarianceNormalization])
    (ctx : InferenceContext) (t : TypeProto) (e : TensorProto.DataType)
    (hin : ctx.getInputType 0 = some t) (he : t.elem_type = some e)
    (hout : 0 < ctx.outputs.length) :
    ∃ ctx1, schema.tensor_inference_function ctx = .ok ctx1 ∧
      (ctx1.getOutputType 0).map TypeProto.elem_type = some (some e) ∧
      (ctx1.getOutputType 0).map TypeProto.shape
        = (match t.shape with
           | some sh => some (some sh)
           | none => (ctx.getOutputType 0).map TypeProto.shape) ∧
      ∀ attributes, schema.tensor_inference_function { ctx with attributes := attributes }
        = .ok { ctx1 with attributes := attributes } := by
  have hfun : schema.tensor_inference_function = propagateShapeAndTypeFromFirstInput := by
    simp only [List.mem_cons, List.mem_singleton, List.not_mem_nil, or_false] at hschema
    rcases hschema with rfl | rfl | rfl | rfl | rfl | rfl | rfl <;> rfl
  obtain ⟨a, i, outs⟩ := ctx
  cases outs with
  | nil => simp at hout
  | cons o os =>
    rw [hfun, propagateShapeAndTypeFromFirstInput_known a i o os t e hin he]
    refine ⟨_, rfl, rfl, ?_, ?_⟩
    · cases t.shape <;> rfl
    · intro attributes
      exact propagateShapeAndTypeFromFirstInput_known attributes i o os t e hin he

/-- Witness of C6 on `identityCtx`: `Affine` over float32 `[1, 3, 4]` gives
float32 `[1, 3, 4]`. -/
theorem identity_propagation_witness :
    ∃ ctx1, Schemas.Affine.tensor_inference_function identityCtx = .ok ctx1 ∧
      (ctx1.getOutputType 0).map TypeProto.elem_type = some (some TensorProto.FLOAT) ∧
      (ctx1.getOutputType 0).map TypeProto.shape
        = some (some ⟨[Dimension.dim_value 1, Dimension.dim_value 3, Dimension.dim_value 4]⟩) ∧
      ∀ attributes,
        Schemas.Affine.tensor_inference_function { identityCtx with attributes := attributes }
          = .ok { ctx1 with attributes := attributes } :=
  identity_propagation Schemas.Affine (List.mem_cons_self _ _) identityCtx
    ⟨some TensorProto.FLOAT, some ⟨[.dim_value 1, .dim_value 3, .dim_value 4]⟩⟩
    TensorProto.FLOAT (by decide) rfl (by decide)

/-! ## The logical operators -/

/-- C7: for each of And, Or, Xor, Greater, Less, Equal and Not and every
context with an output slot 0, inference returns with output 0 of element type
BOOL, whatever the inputs are; output 0's shape is input 0's shape when that
has known rank and is left as it was otherwise. -/
theorem logical_inference (schema : OpSchema)
    (hschema : schema ∈ [Schemas.And, Schemas.Or, Schemas.Xor, Schemas.Greater,
      Schemas.Less, Schemas.Equal, Schemas.Not])
    (ctx : InferenceContext) (hout : 0 < ctx.outputs.length) :
    schema.tensor_inference_function = logicalOpInference ∧
    ∃ ctx1, logicalOpInference ctx = .ok ctx1 ∧
      (ctx1.getOutputType 0).map TypeProto.elem_type = some (some TensorProto.BOOL) ∧
      (ctx1.getOutputType 0).map TypeProto.shape
        = (match (ctx.getInputType 0).bind TypeProto.shape with
           | some sh => some (some sh)
           | none => (ctx.getOutputType 0).map TypeProto.shape) := by
  have hfun : schema.tensor_inference_function = logicalOpInference := by
    simp only [List.mem_cons, List.mem_singleton, List.not_mem_nil, or_false] at hschema
    rcases hschema with rfl | rfl | rfl | rfl | rfl | rfl | rfl <;> rfl
  refine ⟨hfun, ?_⟩
  obtain ⟨a, i, outs⟩ := ctx
  cases outs with
  | nil => simp at hout
  | cons o os =>
    rw [logicalOpInference_cons a i o os]
    refine ⟨_, rfl, rfl, ?_⟩
    cases (InferenceContext.getInputType ⟨a, i, o :: os⟩ 0).bind TypeProto.shape <;> rfl

/-- Witness of C7 on `compareCtx`: `Greater` over two float inputs gives BOOL
with the shape `[2, 3]` of input 0. -/
theorem logical_inference_witness :
    Schemas.Greater.tensor_inference_function = logicalOpInference ∧
    ∃ ctx1, logicalOpInference compareCtx = .ok ctx1 ∧
      (ctx1.getOutputType 0).map TypeProto.elem_type = some (some TensorProto.BOOL) ∧
      (ctx1.getOutputType 0).map TypeProto.shape
        = some (some ⟨[Dimension.dim_value 2, Dimension.dim_value 3]⟩) :=
  logical_inference Schemas.Greater (by simp) compareCtx (by decide)

/-! ## The reduction operators -/

/-- C8, as stated, fails: on an input of shape `[2, 3, 4]` with `axes = [1]`
the inference of `ReduceSum` returns the context as it was, so the unresolved
output 0 has neither shape `[2, 1, 4]` (with `keepdims = 1`) nor shape `[2, 4]`
(with `keepdims = 0`). -/
theorem reduce_inference_counterexample :
    Schemas.ReduceSum.tensor_inference_function (reduceCtx 1) = .ok (reduceCtx 1) ∧
    ((reduceCtx 1).getOutputType 0).map TypeProto.shape
      ≠ some (some ⟨[Dimension.dim_value 2, Dimension.dim_value 1, Dimension.dim_value 4]⟩) ∧
    Schemas.ReduceSum.tensor_inference_function (reduceCtx 0) = .ok (reduceCtx 0) ∧
    ((reduceCtx 0).getOutputType 0).map TypeProto.shape
      ≠ some (some ⟨[Dimension.dim_value 2, Dimension.dim_value 4]⟩) :=
  ⟨rfl, by decide, rfl, by decide⟩

/-- C8, amended: each of the ten reduction schemas attaches no inference
function; running the schema's inference returns every context as it was, so
output 0 keeps the shape and element type it had before the call, whatever
input 0, `axes` and `keepdims` are. -/
theorem reduce_inference_leaves_context (schema : OpSchema)
    (hschema : schema ∈ [Schemas.ReduceMax, Schemas.ReduceMin, Schemas.ReduceSum,
      Schemas.ReduceSumSquare, Schemas.ReduceMean, Schemas.ReduceProd, Schemas.ReduceLogSum,
      Schemas.ReduceLogSumExp, Schemas.ReduceL1, Schemas.ReduceL2])
    (ctx : InferenceContext) :
    schema.tensor_inference_function ctx = .ok ctx := by
  simp only [List.mem_cons, List.mem_singleton, List.not_mem_nil, or_false] at hschema
  rcases hschema with rfl | rfl | rfl | rfl | rfl | rfl | rfl | rfl | rfl | rfl <;> rfl

/-- Witness of the amended C8: `ReduceMax` on `reduceCtx 1`. -/
theorem reduce_inference_leaves_context_witness :
    Schemas.ReduceMax.tensor_inference_function (reduceCtx 1) = .ok (reduceCtx 1) :=
  reduce_inference_leaves_context Schemas.ReduceMax (List.mem_cons_self _ _) (reduceCtx 1)

/-- C9, as stated, fails: on a float input with an unresolved output 0 the
inference of `ArgMax` returns the context as it was, so output 0's element type
is still unknown and not int64. -/
theorem arg_reduce_inference_counterexample :
    Schemas.ArgMax.tensor_inference_function argReduceCtx = .ok argReduceCtx ∧
    (argReduceCtx.getOutputType 0).map TypeProto.elem_type = some none ∧
    (argReduceCtx.getOutputType 0).map TypeProto.elem_type ≠ some (some TensorProto.INT64) :=
  ⟨rfl, by decide, by decide⟩

/-- C9, amended: ArgMax and ArgMin declare their output 0 with the fixed type
string `tensor(int64)`, which names none of their type constraints, and attach
no inference function: running the schema's inference returns every context as
it was, so output 0 keeps the element type it had before the call. -/
theorem arg_reduce_declared_output (schema : OpSchema)
    (hschema : schema ∈ [Schemas.ArgMax, Schemas.ArgMin]) (ctx : InferenceContext) :
    schema.outputs = [⟨0, "reduced", "tensor(int64)", .Single⟩] ∧
    (∀ c ∈ schema.type_constraints, c.type_param_str ≠ "tensor(int64)") ∧
    schema.tensor_inference_function ctx = .ok ctx := by
  simp only [List.mem_cons, List.mem_singleton, List.not_mem_nil, or_false] at hschema
  rcases hschema with rfl | rfl <;> exact ⟨rfl, by decide, rfl⟩

/-- Witness of the amended C9: `ArgMin` on `argReduceCtx`. -/
theorem arg_reduce_declared_output_witness :
    Schemas.ArgMin.outputs = [⟨0, "reduced", "tensor(int64)", .Single⟩] ∧
    (∀ c ∈ Schemas.ArgMin.type_constraints, c.type_param_str ≠ "tensor(int64)") ∧
    Schemas.ArgMin.tensor_inference_function argReduceCtx = .ok argReduceCtx :=
  arg_reduce_declared_output Schemas.ArgMin (by simp) argReduceCtx

/-! ## Registration -/

/-- C10: the schemas declared in the three files are the 12 + 7 + 12 listed
here, each under the ONNX domain, its own name and version 1; these 31
identities are pairwise distinct; registered in declaration order into the
empty registry the 31 schemas are all accepted, and the exact lookup of (ONNX
domain, name, 1) then returns, for each of them, the schema declared under that
name. -/
theorem all_schemas_register :
    experimentsSchemas = [
        Schemas.Affine, Schemas.ThresholdedRelu, Schemas.ScaledTanh,
        Schemas.ParametricSoftplus, Schemas.ConstantFill, Schemas.GivenTensorFill,
        Schemas.Scale, Schemas.GRUUnit, Schemas.ATen, Schemas.ImageScaler,
        Schemas.MeanVarianceNormalization, Schemas.Crop] ∧
    logicalSchemas = [
        Schemas.And, Schemas.Or, Schemas.Xor, Schemas.Greater, Schemas.Less, Schemas.Equal,
        Schemas.Not] ∧
    reductionSchemas = [
        Schemas.ReduceMax, Schemas.ReduceMin, Schemas.ReduceSum, Schemas.ReduceSumSquare,
        Schemas.ReduceMean, Schemas.ReduceProd, Schemas.ReduceLogSum, Schemas.ReduceLogSumExp,
        Schemas.ReduceL1, Schemas.ReduceL2, Schemas.ArgMax, Schemas.ArgMin] ∧
    experimentsSchemas.length = 12 ∧ logicalSchemas.length = 7 ∧
    reductionSchemas.length = 12 ∧
    allSchemas = experimentsSchemas ++ logicalSchemas ++ reductionSchemas ∧
    allSchemas.map OpSchema.identity = [
        (ONNX_DOMAIN, "Affine", 1), (ONNX_DOMAIN, "ThresholdedRelu", 1),
        (ONNX_DOMAIN, "ScaledTanh", 1), (ONNX_DOMAIN, "ParametricSoftplus", 1),
        (ONNX_DOMAIN, "ConstantFill", 1), (ONNX_DOMAIN, "GivenTensorFill", 1),
        (ONNX_DOMAIN, "Scale", 1), (ONNX_DOMAIN, "GRUUnit", 1), (ONNX_DOMAIN, "ATen", 1),
        (ONNX_DOMAIN, "ImageScaler", 1), (ONNX_DOMAIN, "MeanVarianceNormalization", 1),
        (ONNX_DOMAIN, "Crop", 1), (ONNX_DOMAIN, "And", 1), (ONNX_DOMAIN, "Or", 1),
        (ONNX_DOMAIN, "Xor", 1), (ONNX_DOMAIN, "Greater", 1), (ONNX_DOMAIN, "Less", 1),
        (ONNX_DOMAIN, "Equal", 1), (ONNX_DOMAIN, "Not", 1), (ONNX_DOMAIN, "ReduceMax", 1),
        (ONNX_DOMAIN, "ReduceMin", 1), (ONNX_DOMAIN, "ReduceSum", 1),
        (ONNX_DOMAIN, "ReduceSumSquare", 1), (ONNX_DOMAIN, "ReduceMean", 1),
        (ONNX_DOMAIN, "ReduceProd", 1), (ONNX_DOMAIN, "ReduceLogSum", 1),
        (ONNX_DOMAIN, "ReduceLogSumExp", 1), (ONNX_DOMAIN, "ReduceL1", 1),
        (ONNX_DOMAIN, "ReduceL2", 1), (ONNX_DOMAIN, "ArgMax", 1), (ONNX_DOMAIN, "ArgMin", 1)] ∧
    (allSchemas.map OpSchema.identity).Nodup ∧
    ∃ registry, SchemaRegistry.registerAll SchemaRegistry.empty allSchemas = .ok registry ∧
      registry.schemas = allSchemas ∧
      ∀ schema ∈ allSchemas, registry.lookup ONNX_DOMAIN schema.name 1 = some schema := by
  have hnodup : (allSchemas.map OpSchema.identity).Nodup := by decide
  refine ⟨rfl, rfl, rfl, rfl, rfl, rfl, rfl, by decide, hnodup, ⟨allSchemas⟩, ?_, rfl, ?_⟩
  · have h := registerAll_of_nodup allSchemas [] (by simpa using hnodup)
    simpa [SchemaRegistry.empty] using h
  · intro schema hmem
    have hid : schema.domain = ONNX_DOMAIN ∧ schema.since_version = 1 := by
      simp only [allSchemas, experimentsSchemas, logicalSchemas, reductionSchemas,
        List.cons_append, List.nil_append, List.mem_cons, List.mem_singleton,
        List.not_mem_nil, or_false] at hmem
      rcases hmem with h | h | h | h | h | h | h | h | h | h | h | h | h | h | h | h | h | h |
        h | h | h | h | h | h | h | h | h | h | h | h | h <;> subst h <;> exact ⟨rfl, rfl⟩
    have h := lookup_of_nodup allSchemas hnodup schema hmem
    rw [hid.1, hid.2] at h
    exact h

/-! ## Attribute defaults -/

/-- C11: on an instance of `ConstantFill` or `GivenTensorFill` without an
`input_as_shape` attribute the accessor returns 0, so the dynamic-shape test
fails, and inference returns with exactly the output 0 (element type and
shape) that it gives on the same instance with `input_as_shape` set to 0. -/
theorem fill_input_as_shape_default (ctx : InferenceContext)
    (habsent : ctx.getAttribute "input_as_shape" = none) :
    getAttribute ctx "input_as_shape" 0 = .ok 0 ∧
    (Schemas.ConstantFill.isInstance ctx = true →
      ∃ c c0, Schemas.ConstantFill.tensor_inference_function ctx = .ok c ∧
        Schemas.ConstantFill.tensor_inference_function (withInputAsShapeZero ctx) = .ok c0 ∧
        c0.getOutputType 0 = c.getOutputType 0) ∧
    (Schemas.GivenTensorFill.isInstance ctx = true →
      ∃ c c0, Schemas.GivenTensorFill.tensor_inference_function ctx = .ok c ∧
        Schemas.GivenTensorFill.tensor_inference_function (withInputAsShapeZero ctx) = .ok c0 ∧
        c0.getOutputType 0 = c.getOutputType 0) := by
  refine ⟨by simp [getAttribute, habsent], ?_, ?_⟩
  · intro hinst
    obtain ⟨hd, hs, he, hi, ho⟩ := ConstantFill_isInstance ctx hinst
    obtain ⟨a, i, outs⟩ := ctx
    cases outs with
    | nil => simp at ho
    | cons o os =>
      have hdb : ∀ v, (("input_as_shape", AttributeValue.i 0) :: a).lookup "dtype" = some v →
          ∃ n, v = .i n := by
        intro v hv
        rw [lookup_withInputAsShape a _ "dtype" (by decide)] at hv
        exact hd v hv
      obtain ⟨o1, ho1, hel, hstep⟩ := ConstantFill_first_line a i o os hd
      obtain ⟨p1, hp1, hpel, hstepb⟩ :=
        ConstantFill_first_line (("input_as_shape", .i 0) :: a) i o os hdb
      rw [lookup_withInputAsShape a _ "dtype" (by decide)] at hpel
      obtain ⟨sh1, hres, hresb⟩ := fillShapeInference_congr a
        (("input_as_shape", .i 0) :: a) i i o1 p1 os os hs he hi
        (lookup_withInputAsShape a _ "shape" (by decide))
        (lookup_withInputAsShape a _ "extra_shape" (by decide))
        (by
          have h0 : a.lookup "input_as_shape" = none := habsent
          simp [getAttribute, InferenceContext.getAttribute, h0])
        rfl (hp1.trans ho1.symm)
      change ∃ c c0, ConstantFill_inference _ = .ok c ∧
        ConstantFill_inference ⟨("input_as_shape", .i 0) :: a, i, o :: os⟩ = .ok c0 ∧ _
      rw [ConstantFill_inference_eq, ConstantFill_inference_eq, hstep, hstepb]
      simp only
      rw [hres, hresb]
      exact ⟨_, _, rfl, rfl, by simp [InferenceContext.getOutputType, hel, hpel]⟩
  · intro hinst
    obtain ⟨hs, he, hi, ho⟩ := GivenTensorFill_isInstance ctx hinst
    obtain ⟨a, i, outs⟩ := ctx
    cases outs with
    | nil => simp at ho
    | cons o os =>
      obtain ⟨o1, ho1, hstep⟩ := GivenTensorFill_first_line_attributes i o os
      obtain ⟨sh1, hres, hresb⟩ := fillShapeInference_congr a
        (("input_as_shape", .i 0) :: a) i i o1 o1 os os hs he hi
        (lookup_withInputAsShape a _ "shape" (by decide))
        (lookup_withInputAsShape a _ "extra_shape" (by decide))
        (by
          have h0 : a.lookup "input_as_shape" = none := habsent
          simp [getAttribute, InferenceContext.getAttribute, h0])
        rfl rfl
      change ∃ c c0, GivenTensorFill_inference _ = .ok c ∧
        GivenTensorFill_inference ⟨("input_as_shape", .i 0) :: a, i, o :: os⟩ = .ok c0 ∧ _
      rw [GivenTensorFill_inference_eq, GivenTensorFill_inference_eq, hstep a,
        hstep (("input_as_shape", .i 0) :: a)]
      simp only
      rw [hres, hresb]
      exact ⟨_, _, rfl, rfl, rfl⟩

/-- Witness of C11 on `noFlagCtx`: without `input_as_shape` the input shape
`[2, 3]` is extended by `extra_shape = [5]`, as with `input_as_shape = 0`. -/
theorem fill_input_as_shape_default_witness :
    noFlagCtx.getAttribute "input_as_shape" = none ∧
    Schemas.ConstantFill.isInstance noFlagCtx = true ∧
    ∃ c c0, Schemas.ConstantFill.tensor_inference_function noFlagCtx = .ok c ∧
      Schemas.ConstantFill.tensor_inference_function (withInputAsShapeZero noFlagCtx) = .ok c0 ∧
      c0.getOutputType 0 = c.getOutputType 0 :=
  ⟨by decide, by decide, (fill_input_as_shape_default noFlagCtx (by decide)).2.1 (by decide)⟩

/-! ## Declared attributes of the reduction family -/

/-- C16: each of the ten Reduce schemas declares exactly `axes`, an optional
INTS attribute without default value, and `keepdims`, an INT attribute of
default 1; ArgMax and ArgMin declare exactly `axis`, an INT attribute of
default 0, and `keepdims`, an INT attribute of default 1. -/
theorem reduction_declared_attributes :
    (∀ schema ∈ [Schemas.ReduceMax, Schemas.ReduceMin, Schemas.ReduceSum,
        Schemas.ReduceSumSquare, Schemas.ReduceMean, Schemas.ReduceProd, Schemas.ReduceLogSum,
        Schemas.ReduceLogSumExp, Schemas.ReduceL1, Schemas.ReduceL2],
      schema.attributes = [⟨"axes", .INTS, false, none⟩,
                           ⟨"keepdims", .INT, false, some (.i 1)⟩]) ∧
    (∀ schema ∈ [Schemas.ArgMax, Schemas.ArgMin],
      schema.attributes = [⟨"axis", .INT, false, some (.i 0)⟩,
                           ⟨"keepdims", .INT, false, some (.i 1)⟩]) := by
  constructor
  · intro schema hschema
    simp only [List.mem_cons, List.mem_singleton, List.not_mem_nil, or_false] at hschema
    rcases hschema with rfl | rfl | rfl | rfl | rfl | rfl | rfl | rfl | rfl | rfl <;> rfl
  · intro schema hschema
    simp only [List.mem_cons, List.mem_singleton, List.not_mem_nil, or_false] at hschema
    rcases hschema with rfl | rfl <;> rfl

/-! ## Left operand only -/

/-- C17: for each binary logical operator, on two contexts that agree on input
0's descriptor and on the descriptor initially in output slot 0, inference
returns with the same output 0, whatever the second input and the attributes
of either context are. -/
theorem logical_left_operand_only (schema : OpSchema)
    (hschema : schema ∈ [Schemas.And, Schemas.Or, Schemas.Xor, Schemas.Greater,
      Schemas.Less, Schemas.Equal])
    (ctx ctx' : InferenceContext) (o : TypeProto)
    (hin : ctx'.getInputType 0 = ctx.getInputType 0)
    (hout : ctx.getOutputType 0 = some o) (hout' : ctx'.getOutputType 0 = some o) :
    ∃ c c', schema.tensor_inference_function ctx = .ok c ∧
      schema.tensor_inference_function ctx' = .ok c' ∧
      c'.getOutputType 0 = c.getOutputType 0 ∧
      c.getOutputType 0 = some ⟨some TensorProto.BOOL,
        match (ctx.getInputType 0).bind TypeProto.shape with
        | some sh => some sh
        | none => o.shape⟩ := by
  have hfun : schema.tensor_inference_function = logicalOpInference := by
    simp only [List.mem_cons, List.mem_singleton, List.not_mem_nil, or_false] at hschema
    rcases hschema with rfl | rfl | rfl | rfl | rfl | rfl <;> rfl
  obtain ⟨a, i, outs⟩ := ctx
  obtain ⟨b, j, outs'⟩ := ctx'
  cases outs with
  | nil => simp [InferenceContext.getOutputType] at hout
  | cons o0 os =>
    cases outs' with
    | nil => simp [InferenceContext.getOutputType] at hout'
    | cons p0 ps =>
      have ho : o0 = o := by simpa [InferenceContext.getOutputType] using hout
      have hp : p0 = o := by simpa [InferenceContext.getOutputType] using hout'
      subst ho
      subst hp
      rw [hfun, logicalOpInference_cons a i _ os, logicalOpInference_cons b j _ ps, hin]
      exact ⟨_, _, rfl, rfl, rfl, rfl⟩

/-- Witness of C17 on `compareCtx` and `compareOtherCtx`: with a right operand
of shape `[3]` or of shape `[4, 2, 3]` the output is BOOL of shape `[2, 3]`. -/
theorem logical_left_operand_only_witness :
    ∃ c c', Schemas.Less.tensor_inference_function compareCtx = .ok c ∧
      Schemas.Less.tensor_inference_function compareOtherCtx = .ok c' ∧
      c'.getOutputType 0 = c.getOutputType 0 ∧
      c.getOutputType 0 = some ⟨some TensorProto.BOOL,
        match (compareCtx.getInputType 0).bind TypeProto.shape with
        | some sh => some sh
        | none => (⟨none, none⟩ : TypeProto).shape⟩ :=
  logical_left_operand_only Schemas.Less (by simp) compareCtx compareOtherCtx ⟨none, none⟩
    (by decide) (by decide) (by decide)

/-! ## Unknown input shape -/

/-- C18: without a `shape` attribute, when input 0 is absent or has unknown
rank, inference of `ConstantFill` and of `GivenTensorFill` returns with output
0's shape exactly as it was before the call, whatever `extra_shape` and
`input_as_shape` are. -/
theorem fill_unknown_input_keeps_output_shape (ctx : InferenceContext)
    (hshape : ctx.getAttribute "shape" = none)
    (hin : ctx.getInputType 0 = none ∨ ∃ t, ctx.getInputType 0 = some t ∧ t.shape = none) :
    (Schemas.ConstantFill.isInstance ctx = true →
      ∃ ctx1, Schemas.ConstantFill.tensor_inference_function ctx = .ok ctx1 ∧
        (ctx1.getOutputType 0).map TypeProto.shape
          = (ctx.getOutputType 0).map TypeProto.shape) ∧
    (Schemas.GivenTensorFill.isInstance ctx = true →
      ∃ ctx1, Schemas.GivenTensorFill.tensor_inference_function ctx = .ok ctx1 ∧
        (ctx1.getOutputType 0).map TypeProto.shape
          = (ctx.getOutputType 0).map TypeProto.shape) := by
  apply fill_closures_instance
  intro _ he hi o o1 os hout ho1
  have hres : (InferenceContext.getOutputType ⟨ctx.attributes, ctx.inputs, o1 :: os⟩ 0).map
      TypeProto.shape = (ctx.getOutputType 0).map TypeProto.shape := by
    simp [InferenceContext.getOutputType, hout, ho1]
  have hnone : (InferenceContext.getInputType ⟨ctx.attributes, ctx.inputs, o1 :: os⟩ 0).bind
      TypeProto.shape = none := by
    have hsame : InferenceContext.getInputType ⟨ctx.attributes, ctx.inputs, o1 :: os⟩ 0
        = ctx.getInputType 0 := rfl
    rw [hsame]
    rcases hin with h | ⟨t, h, ht⟩
    · rw [h]; rfl
    · rw [h]; exact ht
  obtain ⟨n, hn⟩ := getAttribute_returns ⟨ctx.attributes, ctx.inputs, o1 :: os⟩
    "input_as_shape" 0 hi
  by_cases hz : n = 0
  · subst hz
    have hext : ∃ es, ctx.attributes.lookup "extra_shape" = some (.ints es) ∨
        (ctx.attributes.lookup "extra_shape" = none ∧ es = []) := by
      cases hx : ctx.attributes.lookup "extra_shape" with
      | none => exact ⟨[], Or.inr ⟨rfl, rfl⟩⟩
      | some v =>
        obtain ⟨l, rfl⟩ := he v hx
        exact ⟨l, Or.inl rfl⟩
    obtain ⟨es, hes⟩ := hext
    rw [fillShapeInference_extend ctx.attributes ctx.inputs o1 os es hshape
      (getAttribute_eq_ok_zero _ _ hn) hes, hnone]
    exact ⟨_, rfl, hres⟩
  · rw [fillShapeInference_dynamic ⟨ctx.attributes, ctx.inputs, o1 :: os⟩ n hshape hn hz]
    exact ⟨_, rfl, hres⟩

/-- Witness of C18 on `unknownRankCtx`: with `extra_shape = [5]` over an input
of unknown rank the unresolved output stays unknown-rank. -/
theorem fill_unknown_input_keeps_output_shape_witness :
    Schemas.GivenTensorFill.isInstance unknownRankCtx = true ∧
    ∃ ctx1, Schemas.GivenTensorFill.tensor_inference_function unknownRankCtx = .ok ctx1 ∧
      (ctx1.getOutputType 0).map TypeProto.shape
        = (unknownRankCtx.getOutputType 0).map TypeProto.shape :=
  ⟨by decide,
   (fill_unknown_input_keeps_output_shape unknownRankCtx (by decide)
      (Or.inr ⟨⟨some TensorProto.FLOAT, none⟩, by decide, rfl⟩)).2 (by decide)⟩

/-! ## The two fill closures compared -/

/-- C20: on a `ConstantFill` instance and a `GivenTensorFill` instance that
agree on input 0's descriptor, on the attributes `shape`, `input_as_shape` and
`extra_shape` and on the descriptor initially in output slot 0, the two
closures return with the same shape in output 0.  The element types are chosen
differently: from `dtype` (FLOAT when absent) by `ConstantFill`, from input 0
(when known) by `GivenTensorFill`. -/
theorem fill_shape_parts_agree (ctx ctx' : InferenceContext)
    (hshape : ctx'.getAttribute "shape" = ctx.getAttribute "shape")
    (hias : ctx'.getAttribute "input_as_shape" = ctx.getAttribute "input_as_shape")
    (hextra : ctx'.getAttribute "extra_shape" = ctx.getAttribute "extra_shape")
    (hin : ctx'.getInputType 0 = ctx.getInputType 0)
    (hout : ctx'.getOutputType 0 = ctx.getOutputType 0)
    (hinst : Schemas.ConstantFill.isInstance ctx = true)
    (hinst' : Schemas.GivenTensorFill.isInstance ctx' = true) :
    ∃ c c', Schemas.ConstantFill.tensor_inference_function ctx = .ok c ∧
      Schemas.GivenTensorFill.tensor_inference_function ctx' = .ok c' ∧
      (c'.getOutputType 0).map TypeProto.shape = (c.getOutputType 0).map TypeProto.shape ∧
      (c.getOutputType 0).map TypeProto.elem_type
        = some (some (match ctx.getAttribute "dtype" with
                      | some (.i v) => ⟨v⟩
                      | _ => TensorProto.FLOAT)) ∧
      (c'.getOutputType 0).map TypeProto.elem_type
        = (ctx'.getOutputType 0).map (fun o =>
            match (ctx'.getInputType 0).bind TypeProto.elem_type with
            | some e => some e
            | none => o.elem_type) := by
  obtain ⟨hd, hs, he, hi, ho⟩ := ConstantFill_isInstance ctx hinst
  obtain ⟨-, -, -, ho'⟩ := GivenTensorFill_isInstance ctx' hinst'
  obtain ⟨a, i, outs⟩ := ctx
  obtain ⟨b, j, outs'⟩ := ctx'
  cases outs with
  | nil => simp at ho
  | cons o os =>
    cases outs' with
    | nil => simp at ho'
    | cons p ps =>
      have hpo : p = o := by simpa [InferenceContext.getOutputType] using hout
      obtain ⟨o1, ho1, hel, hstep⟩ := ConstantFill_first_line a i o os hd
      obtain ⟨p1, hp1, hpel, hstep'⟩ := GivenTensorFill_first_line_elem b j p ps
      obtain ⟨sh1, hres, hres'⟩ := fillShapeInference_congr a b i j o1 p1 os ps hs he hi
        hshape hextra
        (by
          have h : b.lookup "input_as_shape" = a.lookup "input_as_shape" := hias
          simp only [getAttribute, InferenceContext.getAttribute, h])
        hin (by rw [hp1, ho1, hpo])
      change ∃ c c', ConstantFill_inference _ = .ok c ∧ GivenTensorFill_inference _ = .ok c' ∧ _
      rw [ConstantFill_inference_eq, GivenTensorFill_inference_eq, hstep, hstep']
      simp only
      rw [hres, hres']
      refine ⟨_, _, rfl, rfl, rfl, ?_, ?_⟩
      · simp [InferenceContext.getOutputType, InferenceContext.getAttribute, hel]
      · simp [InferenceContext.getOutputType, hpel]

/-- Witness of C20 on `dtypeCtx` (for `ConstantFill`) and `plainCtx` (for
`GivenTensorFill`): the same shape, and element types of code 7 and of the
float input. -/
theorem fill_shape_parts_agree_witness :
    ∃ c c', Schemas.ConstantFill.tensor_inference_function dtypeCtx = .ok c ∧
      Schemas.GivenTensorFill.tensor_inference_function plainCtx = .ok c' ∧
      (c'.getOutputType 0).map TypeProto.shape = (c.getOutputType 0).map TypeProto.shape ∧
      (c.getOutputType 0).map TypeProto.elem_type
        = some (some (match dtypeCtx.getAttribute "dtype" with
                      | some (.i v) => ⟨v⟩
                      | _ => TensorProto.FLOAT)) ∧
      (c'.getOutputType 0).map TypeProto.elem_type
        = (plainCtx.getOutputType 0).map (fun o =>
            match (plainCtx.getInputType 0).bind TypeProto.elem_type with
            | some e => some e
            | none => o.elem_type) :=
  fill_shape_parts_agree dtypeCtx plainCtx (by decide) (by decide) (by decide) (by decide)
    (by decide) (by decide) (by decide)

/-! ## Frame and termination -/

/-- C12: `logicalOpInference` and the closures of `ConstantFill` and
`GivenTensorFill` return on every context with an output slot 0, respectively
on every instance, and whenever one of them returns, the context it leaves
differs from the one it was given at most in the descriptor of output 0:
the attributes, every input descriptor (input 0's shape included, to which the
extension path appends nothing) and every other output slot are as before. -/
theorem inference_changes_only_output_zero (ctx : InferenceContext) :
    ((0 < ctx.outputs.length → ∃ c, logicalOpInference ctx = .ok c) ∧
      ∀ c, logicalOpInference ctx = .ok c → InferenceContext.onlyOutputChanged 0 ctx c) ∧
    ((Schemas.ConstantFill.isInstance ctx = true →
        ∃ c, Schemas.ConstantFill.tensor_inference_function ctx = .ok c) ∧
      ∀ c, Schemas.ConstantFill.tensor_inference_function ctx = .ok c →
        InferenceContext.onlyOutputChanged 0 ctx c) ∧
    ((Schemas.GivenTensorFill.isInstance ctx = true →
        ∃ c, Schemas.GivenTensorFill.tensor_inference_function ctx = .ok c) ∧
      ∀ c, Schemas.GivenTensorFill.tensor_inference_function ctx = .ok c →
        InferenceContext.onlyOutputChanged 0 ctx c) :=
  ⟨⟨logicalOpInference_returns ctx, logicalOpInference_frame ctx⟩,
   ⟨ConstantFill_inference_returns ctx, ConstantFill_inference_frame ctx⟩,
   ⟨GivenTensorFill_inference_returns ctx, GivenTensorFill_inference_frame ctx⟩⟩

/-- C12 on `extendCtx`: the extension path of `GivenTensorFill` returns and
leaves input 0 with its shape `[2, 3]`. -/
theorem inference_changes_only_output_zero_witness :
    ∃ c, Schemas.GivenTensorFill.tensor_inference_function extendCtx = .ok c ∧
      c.attributes = extendCtx.attributes ∧
      c.getInputType 0
        = some ⟨some TensorProto.FLOAT, some ⟨[.dim_value 2, .dim_value 3]⟩⟩ := by
  obtain ⟨hret, hframe⟩ := (inference_changes_only_output_zero extendCtx).2.2
  obtain ⟨c, hc⟩ := hret (by decide)
  obtain ⟨ha, hi, -, -⟩ := hframe c hc
  refine ⟨c, hc, ha, ?_⟩
  simp only [InferenceContext.getInputType, hi]
  decide

/-- C19: the closures of `ConstantFill` and of `GivenTensorFill` return on
every instance, whatever is known of input 0 and whichever attributes are
present; on no context at all do they report a read of a missing input shape,
because that read stands under `hasInputShape`, under which it succeeds. -/
theorem fill_inference_total (ctx : InferenceContext) :
    (Schemas.ConstantFill.isInstance ctx = true →
      ∃ c, Schemas.ConstantFill.tensor_inference_function ctx = .ok c) ∧
    (Schemas.GivenTensorFill.isInstance ctx = true →
      ∃ c, Schemas.GivenTensorFill.tensor_inference_function ctx = .ok c) ∧
    (∀ n, Schemas.ConstantFill.tensor_inference_function ctx ≠ .error (.nullInputType n)) ∧
    (∀ n, Schemas.GivenTensorFill.tensor_inference_function ctx ≠ .error (.nullInputType n)) ∧
    (hasInputShape ctx 0 = true → ∃ sh, readInputShape ctx 0 = .ok sh) :=
  ⟨ConstantFill_inference_returns ctx, GivenTensorFill_inference_returns ctx,
   ConstantFill_inference_no_null_read ctx, GivenTensorFill_inference_no_null_read ctx,
   readInputShape_of_hasInputShape ctx 0⟩

/-- C19 on `absentInputCtx`: with input 0 not supplied both closures return. -/
theorem fill_inference_total_witness :
    (∃ c, Schemas.ConstantFill.tensor_inference_function absentInputCtx = .ok c) ∧
    (∃ c, Schemas.GivenTensorFill.tensor_inference_function absentInputCtx = .ok c) :=
  ⟨(fill_inference_total absentInputCtx).1 (by decide),
   (fill_inference_total absentInputCtx).2.1 (by decide)⟩

/-! ## Non-negative dimensions -/

/-- C13: on every instance of `ConstantFill` or `GivenTensorFill` whose input 0
shape, if any, has no negative concrete dimension, and whatever the attributes
`shape` and `extra_shape` hold, negative entries included, inference returns
and output 0's shape is left as it was or is a shape all of whose concrete
dimensions are non-negative. -/
theorem fill_written_dims_nonneg (ctx : InferenceContext)
    (hin : ∀ t sh, ctx.getInputType 0 = some t → t.shape = some sh →
      ∀ v, Dimension.dim_value v ∈ sh.dim → 0 ≤ v) :
    (Schemas.ConstantFill.isInstance ctx = true →
      ∃ c, Schemas.ConstantFill.tensor_inference_function ctx = .ok c ∧
        ((c.getOutputType 0).map TypeProto.shape = (ctx.getOutputType 0).map TypeProto.shape ∨
          ∃ sh, (c.getOutputType 0).map TypeProto.shape = some (some sh) ∧
            ∀ v, Dimension.dim_value v ∈ sh.dim → 0 ≤ v)) ∧
    (Schemas.GivenTensorFill.isInstance ctx = true →
      ∃ c, Schemas.GivenTensorFill.tensor_inference_function ctx = .ok c ∧
        ((c.getOutputType 0).map TypeProto.shape = (ctx.getOutputType 0).map TypeProto.shape ∨
          ∃ sh, (c.getOutputType 0).map TypeProto.shape = some (some sh) ∧
            ∀ v, Dimension.dim_value v ∈ sh.dim → 0 ≤ v)) := by
  apply fill_closures_instance
  intro hs he hi o o1 os hout ho1
  have hkeep : (InferenceContext.getOutputType ⟨ctx.attributes, ctx.inputs, o1 :: os⟩ 0).map
      TypeProto.shape = (ctx.getOutputType 0).map TypeProto.shape := by
    simp [InferenceContext.getOutputType, hout, ho1]
  cases hsa : ctx.attributes.lookup "shape" with
  | some v =>
    obtain ⟨dims, rfl⟩ := hs v hsa
    rw [fillShapeInference_shape_cases ctx.attributes ctx.inputs o1 os dims hsa]
    cases hsh : shapeOfInts dims with
    | none => exact ⟨_, rfl, Or.inl hkeep⟩
    | some sh =>
      obtain ⟨hdim, hnn⟩ := shapeOfInts_some dims sh hsh
      refine ⟨_, rfl, Or.inr ⟨sh, rfl, ?_⟩⟩
      intro v hv
      rw [hdim] at hv
      obtain ⟨e, hmem, heq⟩ := List.mem_map.mp hv
      injection heq with heq
      subst heq
      exact hnn e hmem
  | none =>
    obtain ⟨n, hn⟩ := getAttribute_returns ⟨ctx.attributes, ctx.inputs, o1 :: os⟩
      "input_as_shape" 0 hi
    by_cases hz : n = 0
    · subst hz
      have hext : ∃ es, ctx.attributes.lookup "extra_shape" = some (.ints es) ∨
          (ctx.attributes.lookup "extra_shape" = none ∧ es = []) := by
        cases hx : ctx.attributes.lookup "extra_shape" with
        | none => exact ⟨[], Or.inr ⟨rfl, rfl⟩⟩
        | some v =>
          obtain ⟨l, rfl⟩ := he v hx
          exact ⟨l, Or.inl rfl⟩
      obtain ⟨es, hes⟩ := hext
      rw [fillShapeInference_extend ctx.attributes ctx.inputs o1 os es hsa
        (getAttribute_eq_ok_zero _ _ hn) hes]
      have hsame : InferenceContext.getInputType ⟨ctx.attributes, ctx.inputs, o1 :: os⟩ 0
          = ctx.getInputType 0 := rfl
      rw [hsame]
      cases hit : ctx.getInputType 0 with
      | none => exact ⟨_, rfl, Or.inl hkeep⟩
      | some t =>
        cases hsh : t.shape with
        | none =>
          simp only [Option.bind, hsh]
          exact ⟨_, rfl, Or.inl hkeep⟩
        | some sh =>
          simp only [Option.bind, hsh]
          cases happ : appendExtraShape sh es with
          | none => exact ⟨_, rfl, Or.inl hkeep⟩
          | some sh1 =>
            obtain ⟨hdim, hnn⟩ := appendExtraShape_some es sh sh1 happ
            refine ⟨_, rfl, Or.inr ⟨sh1, rfl, ?_⟩⟩
            intro v hv
            rw [hdim] at hv
            rcases List.mem_append.mp hv with hv | hv
            · exact hin t sh hit hsh v hv
            · obtain ⟨e, hmem, heq⟩ := List.mem_map.mp hv
              injection heq with heq
              subst heq
              exact hnn e hmem
    · rw [fillShapeInference_dynamic ⟨ctx.attributes, ctx.inputs, o1 :: os⟩ n hsa hn hz]
      exact ⟨_, rfl, Or.inl hkeep⟩

/-- Witness of C13 on `extendCtx`: over the input shape `[2, 3]` and with
`extra_shape = [5]` the shape written by `ConstantFill` has no negative
concrete dimension. -/
theorem fill_written_dims_nonneg_witness :
    Schemas.ConstantFill.isInstance extendCtx = true ∧
    ∃ c, Schemas.ConstantFill.tensor_inference_function extendCtx = .ok c ∧
      (c.getOutputType 0).map TypeProto.shape
        = some (some ⟨[.dim_value 2, .dim_value 3, .dim_value 5]⟩) ∧
      ((c.getOutputType 0).map TypeProto.shape
          = (extendCtx.getOutputType 0).map TypeProto.shape ∨
        ∃ sh, (c.getOutputType 0).map TypeProto.shape = some (some sh) ∧
          ∀ v, Dimension.dim_value v ∈ sh.dim → 0 ≤ v) := by
  have h := (fill_written_dims_nonneg extendCtx (by
      intro t sh ht hsh v hv
      have ht0 : extendCtx.getInputType 0
          = some ⟨some TensorProto.FLOAT, some ⟨[.dim_value 2, .dim_value 3]⟩⟩ := by decide
      rw [ht0] at ht
      injection ht with ht
      subst ht
      injection hsh with hsh
      subst hsh
      simp only [List.mem_cons, List.mem_singleton, List.not_mem_nil, or_false] at hv
      rcases hv with hv | hv <;> injection hv with hv <;> omega)).1 (by decide)
  obtain ⟨c, hc, hdims⟩ := h
  refine ⟨by decide, c, hc, ?_, hdims⟩
  have hc0 : Schemas.ConstantFill.tensor_inference_function extendCtx
      = .ok ⟨extendCtx.attributes, extendCtx.inputs,
          [⟨some TensorProto.FLOAT, some ⟨[.dim_value 2, .dim_value 3, .dim_value 5]⟩⟩]⟩ := rfl
  rw [hc0] at hc
  injection hc with hc
  subst hc
  rfl

/-! ## The output type constraint of `ConstantFill` -/

/-- C15, as stated, fails: on `doubleCtx`, an instance with `dtype = 11`,
inference assigns to output 0 the element type of code 11 (DOUBLE), which is
not among the types float, int32, int64, bool of the constraint `T2`. -/
theorem ConstantFill_output_type_counterexample :
    Schemas.ConstantFill.isInstance doubleCtx = true ∧
    Schemas.ConstantFill.allowedElemTypes "T2"
      = [TensorProto.FLOAT, TensorProto.INT32, TensorProto.INT64, TensorProto.BOOL] ∧
    ∃ c, Schemas.ConstantFill.tensor_inference_function doubleCtx = .ok c ∧
      (c.getOutputType 0).map TypeProto.elem_type = some (some TensorProto.DOUBLE) ∧
      TensorProto.DOUBLE ∉ Schemas.ConstantFill.allowedElemTypes "T2" :=
  ⟨by decide, by decide, ⟨_, rfl, by decide, by decide⟩⟩

/-- C15, amended: on every `ConstantFill` instance inference returns with an
element type in output 0 that is a member of the constraint `T2` (float,
int32, int64, bool) exactly when `dtype` is absent or has one of the enum codes
1, 6, 7, 9 of these four types. -/
theorem ConstantFill_output_type_in_constraint (ctx : InferenceContext)
    (hinst : Schemas.ConstantFill.isInstance ctx = true) :
    ∃ c e, Schemas.ConstantFill.tensor_inference_function ctx = .ok c ∧
      (c.getOutputType 0).map TypeProto.elem_type = some (some e) ∧
      (e ∈ Schemas.ConstantFill.allowedElemTypes "T2" ↔
        (ctx.getAttribute "dtype" = none ∨
          ∃ v ∈ [1, 6, 7, 9], ctx.getAttribute "dtype" = some (.i v))) := by
  obtain ⟨c, hc, he⟩ := ConstantFill_inference_dtype ctx hinst
  obtain ⟨hd, -⟩ := ConstantFill_isInstance ctx hinst
  refine ⟨c, _, hc, he, ?_⟩
  have hT2 : Schemas.ConstantFill.allowedElemTypes "T2"
      = [TensorProto.FLOAT, TensorProto.INT32, TensorProto.INT64, TensorProto.BOOL] := by
    decide
  rw [hT2]
  cases hdt : ctx.getAttribute "dtype" with
  | none => simp
  | some v =>
    obtain ⟨n, rfl⟩ := hd v hdt
    simp [TensorProto.FLOAT, TensorProto.INT32, TensorProto.INT64, TensorProto.BOOL]

/-- Witness of the amended C15 on `dtypeCtx`, where `dtype = 7`. -/
theorem ConstantFill_output_type_in_constraint_witness :
    ∃ c e, Schemas.ConstantFill.tensor_inference_function dtypeCtx = .ok c ∧
      (c.getOutputType 0).map TypeProto.elem_type = some (some e) ∧
      (e ∈ Schemas.ConstantFill.allowedElemTypes "T2" ↔
        (dtypeCtx.getAttribute "dtype" = none ∨
          ∃ v ∈ [1, 6, 7, 9], dtypeCtx.getAttribute "dtype" = some (.i v))) :=
  ConstantFill_output_type_in_constraint dtypeCtx (by decide)

/-! ## At most one write of each kind -/

/-- C14: in one invocation of `logicalOpInference`, of the `ConstantFill`
closure or of the `GivenTensorFill` closure, on every path (those ending in a
report included) the setter of output 0's element type is called at most once
and the setter of output 0's shape is called at most once; the traced
invocations have the results of the plain ones. -/
theorem output_written_at_most_once (ctx : InferenceContext) :
    ((Traced.logicalOpInference ctx).result = logicalOpInference ctx ∧
      (Traced.logicalOpInference ctx).writes.countP (OutputWrite.setsElemType 0) ≤ 1 ∧
      (Traced.logicalOpInference ctx).writes.countP (OutputWrite.setsShape 0) ≤ 1) ∧
    ((Traced.ConstantFill_inference ctx).result
        = Schemas.ConstantFill.tensor_inference_function ctx ∧
      (Traced.ConstantFill_inference ctx).writes.countP (OutputWrite.setsElemType 0) ≤ 1 ∧
      (Traced.ConstantFill_inference ctx).writes.countP (OutputWrite.setsShape 0) ≤ 1) ∧
    ((Traced.GivenTensorFill_inference ctx).result
        = Schemas.GivenTensorFill.tensor_inference_function ctx ∧
      (Traced.GivenTensorFill_inference ctx).writes.countP (OutputWrite.setsElemType 0) ≤ 1 ∧
      (Traced.GivenTensorFill_inference ctx).writes.countP (OutputWrite.setsShape 0) ≤ 1) := by
  refine ⟨?_, ?_, ?_⟩
  · have h := andThen_counts (Traced.updateOutputElemType ctx 0 TensorProto.BOOL)
      (fun c => if hasInputShape c 0 then Traced.propagateShapeFromInputToOutput c 0 0
        else .silent (.ok c))
      (updateOutputElemType ctx 0 TensorProto.BOOL)
      (fun c => if hasInputShape c 0 then propagateShapeFromInputToOutput c 0 0 else .ok c)
      ⟨rfl, Or.inr ⟨_, rfl⟩⟩
      (fun c => by
        by_cases hg : hasInputShape c 0 = true
        · simp only [hg, if_true]
          exact traced_propagateShapeFromInputToOutput_run c 0 0
        · simp only [hg]
          exact ⟨rfl, Or.inl rfl⟩)
    exact ⟨h.1.trans (logicalOpInference_bind ctx), h.2⟩
  · have h := andThen_counts _ Traced.fillShapeInference _ fillShapeInference
      (traced_propagateElemTypeFromAttributeToOutput_run ctx "dtype" 0 TensorProto.FLOAT)
      traced_fillShapeInference_run
    exact ⟨h.1.trans (ConstantFill_inference_bind ctx), h.2⟩
  · have h := andThen_counts _ Traced.fillShapeInference _ fillShapeInference
      (traced_propagateElemTypeFromInputToOutput_run ctx 0 0)
      traced_fillShapeInference_run
    exact ⟨h.1.trans (GivenTensorFill_inference_bind ctx), h.2⟩

/-- C14 on `extendCtx`: the `ConstantFill` closure calls each setter exactly
once, first for the element type FLOAT, then for the shape `[2, 3, 5]`. -/
theorem output_written_at_most_once_witness :
    (Traced.ConstantFill_inference extendCtx).writes
      = [OutputWrite.elem_type 0 TensorProto.FLOAT,
         OutputWrite.shape 0 ⟨[.dim_value 2, .dim_value 3, .dim_value 5]⟩] ∧
    (Traced.ConstantFill_inference extendCtx).writes.countP (OutputWrite.setsElemType 0) ≤ 1 ∧
    (Traced.ConstantFill_inference extendCtx).writes.countP (OutputWrite.setsShape 0) ≤ 1 :=
  ⟨by decide, (output_written_at_most_once extendCtx).2.1.2⟩

/-! ## Idempotence -/

/-- C21: `logicalOpInference` and the closures of `ConstantFill` and
`GivenTensorFill` return on every context with an output slot 0, respectively
on every instance, and whenever one of them returns, running it a second time
on the context it produced returns that same context: every descriptor is as
the first run left it. -/
theorem inference_idempotent (ctx : InferenceContext) :
    ((0 < ctx.outputs.length → ∃ c, logicalOpInference ctx = .ok c) ∧
      ∀ c, logicalOpInference ctx = .ok c → logicalOpInference c = .ok c) ∧
    ((Schemas.ConstantFill.isInstance ctx = true →
        ∃ c, Schemas.ConstantFill.tensor_inference_function ctx = .ok c) ∧
      ∀ c, Schemas.ConstantFill.tensor_inference_function ctx = .ok c →
        Schemas.ConstantFill.tensor_inference_function c = .ok c) ∧
    ((Schemas.GivenTensorFill.isInstance ctx = true →
        ∃ c, Schemas.GivenTensorFill.tensor_inference_function ctx = .ok c) ∧
      ∀ c, Schemas.GivenTensorFill.tensor_inference_function ctx = .ok c →
        Schemas.GivenTensorFill.tensor_inference_function c = .ok c) := by
  refine ⟨⟨logicalOpInference_returns ctx, logicalOpInference_again ctx⟩,
    ⟨ConstantFill_inference_returns ctx, ?_⟩, ⟨GivenTensorFill_inference_returns ctx, ?_⟩⟩
  · intro c h
    change ConstantFill_inference ctx = .ok c at h
    change ConstantFill_inference c = .ok c
    rw [← ConstantFill_inference_bind] at h ⊢
    refine fill_sequence_again
      (fun x => propagateElemTypeFromAttributeToOutput x "dtype" 0 TensorProto.FLOAT)
      (fun a i => ?_) ctx c h
    rcases ConstantFill_first_line_uniform a i with hf | hf
    · exact Or.inr (Or.inl hf)
    · exact Or.inr (Or.inr hf)
  · intro c h
    change GivenTensorFill_inference ctx = .ok c at h
    change GivenTensorFill_inference c = .ok c
    rw [← GivenTensorFill_inference_bind] at h ⊢
    refine fill_sequence_again (fun x => propagateElemTypeFromInputToOutput x 0 0)
      (fun a i => ?_) ctx c h
    rcases GivenTensorFill_first_line_uniform a i with hf | hf
    · exact Or.inl hf
    · exact Or.inr (Or.inl hf)

/-- C21 on `extendCtx`: the `ConstantFill` closure gives FLOAT `[2, 3, 5]`, and
run again on that context it returns it unchanged. -/
theorem inference_idempotent_witness :
    ∃ c, Schemas.ConstantFill.tensor_inference_function extendCtx = .ok c ∧
      Schemas.ConstantFill.tensor_inference_function c = .ok c ∧
      c.getOutputType 0 = some ⟨some TensorProto.FLOAT,
        some ⟨[.dim_value 2, .dim_value 3, .dim_value 5]⟩⟩ := by
  obtain ⟨-, hagain⟩ := (inference_idempotent extendCtx).2.1
  exact ⟨_, rfl, hagain _ rfl, by decide⟩

end ONNX
